import Mathlib

/-!
Verification of the KnowHow team Q&A application (Express/MySQL).

Each request handler that the claims concern is embedded as a pure Lean
function over a record of the database tables it touches.  Every `db.query`
of the JavaScript source becomes one lookup / update on those lists, in the
same order and guarded by the same checks as the source; handlers return the
HTTP response they would send together with the database state they leave
behind.  Rows keep the column names of `config/init-db.js` (camel-cased),
and the uniqueness hypotheses used below correspond to the schema's
UNIQUE / PRIMARY KEY constraints (`unique_membership (user_id, team_id)`,
`unique_vote`, `PRIMARY KEY (question_id, tag_id)`, unique tag ids).
-/

/-- An HTTP response: `res.json(...)` on success, `res.status(n).json(...)`
on failure, reduced to the status code and the message string of the source. -/
inductive HttpRes where
  | ok (msg : String)
  | err (status : Nat) (msg : String)
deriving DecidableEq

/-- MemberRow role, column `team_members.role ENUM('admin','member')`. -/
inductive Role where
  | admin
  | member
deriving DecidableEq

/-- One row of `team_members` (id and joined_at columns omitted: no handler
modelled here reads them). -/
structure MemberRow where
  userId : Nat
  teamId : Nat
  role : Role
deriving DecidableEq

/-- One row of `teams`, reduced to the columns the modelled handlers read. -/
structure TeamRow where
  id : Nat
  slug : String
deriving DecidableEq

/-- The tables touched by the membership handlers of `routes/admin.js` and
the leave handler of `routes/teams.js`. -/
structure TeamDB where
  teams : List TeamRow
  members : List MemberRow
deriving DecidableEq

/-- `requireTeamAdmin` middleware (`middleware/auth.js`): the requestor's
membership row in the team must exist and carry role `admin`. -/
def requireTeamAdmin (uid tid : Nat) (ms : List MemberRow) : Bool :=
  match ms.find? (fun m => m.userId == uid && m.teamId == tid) with
  | some m => m.role == Role.admin
  | none => false

/-- Row effect of `UPDATE team_members SET role = ? WHERE team_id = ? AND
user_id = ?`. -/
def updRole (teamId memberId : Nat) (newRole : Role) (m : MemberRow) : MemberRow :=
  if m.teamId == teamId && m.userId == memberId then { m with role := newRole } else m

/-- `PUT /:teamId/members/:memberId/role` (`routes/admin.js`): admin check,
self-change check, then for a demotion the count of admins in the team other
than the target must be nonzero, then `UPDATE team_members SET role = ?`. -/
def changeRole (requestorId teamId memberId : Nat) (newRole : Role)
    (s : TeamDB) : HttpRes × TeamDB :=
  if !requireTeamAdmin requestorId teamId s.members then
    (HttpRes.err 403 ("Admin access required."), s)
  else if memberId == requestorId then
    (HttpRes.err 400 ("You cannot change your own role"), s)
  else if newRole == Role.member
      && s.members.countP
          (fun m => m.teamId == teamId && m.role == Role.admin
            && m.userId != memberId) == 0 then
    (HttpRes.err 400 ("Cannot demote. Team must have at least one admin."), s)
  else
    (HttpRes.ok ("Member role updated successfully"),
      { s with members := s.members.map (updRole teamId memberId newRole) })

/-- `DELETE /:teamId/members/:memberId` (`routes/admin.js`): admin check,
self-removal check, target row must exist, and if the target row is an admin
the count of other admins must be nonzero, then `DELETE FROM team_members`. -/
def removeMember (requestorId teamId memberId : Nat) (s : TeamDB) :
    HttpRes × TeamDB :=
  if !requireTeamAdmin requestorId teamId s.members then
    (HttpRes.err 403 ("Admin access required."), s)
  else if memberId == requestorId then
    (HttpRes.err 400 ("You cannot remove yourself from the team"), s)
  else
    match s.members.find? (fun m => m.teamId == teamId && m.userId == memberId) with
    | none => (HttpRes.err 404 ("Member not found"), s)
    | some m =>
      if m.role == Role.admin
          && s.members.countP
              (fun x => x.teamId == teamId && x.role == Role.admin
                && x.userId != memberId) == 0 then
        (HttpRes.err 400 ("Cannot remove. Team must have at least one admin."), s)
      else
        (HttpRes.ok ("Member removed successfully"),
          { s with members := s.members.filter (fun x =>
              !(x.teamId == teamId && x.userId == memberId)) })

/-- `DELETE /:slug/leave` (`routes/teams.js`): team lookup by slug, caller
must be a member; a sole admin may leave only when no other member remains,
otherwise the deletion of the caller's membership row proceeds. -/
def leaveTeam (userId : Nat) (slug : String) (s : TeamDB) : HttpRes × TeamDB :=
  match s.teams.find? (fun t => t.slug == slug) with
  | none => (HttpRes.err 404 ("Team not found"), s)
  | some t =>
    match s.members.find? (fun m => m.userId == userId && m.teamId == t.id) with
    | none => (HttpRes.err 400 ("You are not a member of this team"), s)
    | some m =>
      if m.role == Role.admin
          && s.members.countP
              (fun x => x.teamId == t.id && x.role == Role.admin
                && x.userId != userId) == 0
          && decide (0 < s.members.countP
              (fun x => x.teamId == t.id && x.userId != userId)) then
        (HttpRes.err 400
          ("You are the only admin. Please promote another member to admin before leaving."), s)
      else
        (HttpRes.ok ("You have left the team"),
          { s with members := s.members.filter (fun x =>
              !(x.userId == userId && x.teamId == t.id)) })

/-- The last-admin invariant of the spec: every team that still has a member
has a member with role `admin`. -/
def adminInv (ms : List MemberRow) : Prop :=
  ∀ t : Nat, (∃ m ∈ ms, m.teamId = t) →
    ∃ m ∈ ms, m.teamId = t ∧ m.role = Role.admin

instance (ms : List MemberRow) : Decidable (adminInv ms) := by
  unfold adminInv
  have : (∀ m0 ∈ ms, ∃ m ∈ ms, m.teamId = m0.teamId ∧ m.role = Role.admin) ↔
      (∀ t : Nat, (∃ m ∈ ms, m.teamId = t) →
        ∃ m ∈ ms, m.teamId = t ∧ m.role = Role.admin) := by
    constructor
    · rintro h t ⟨m0, hm0, rfl⟩
      exact h m0 hm0
    · intro h m0 hm0
      exact h m0.teamId ⟨m0, hm0, rfl⟩
  exact decidable_of_iff _ this

/-- The schema's `UNIQUE KEY unique_membership (user_id, team_id)`:
no two distinct membership rows share the same user and team. -/
def uniqueMembers (ms : List MemberRow) : Prop :=
  ∀ m1 ∈ ms, ∀ m2 ∈ ms, m1.userId = m2.userId → m1.teamId = m2.teamId → m1 = m2

instance (ms : List MemberRow) : Decidable (uniqueMembers ms) := by
  unfold uniqueMembers
  infer_instance

/-- "Sole admin": the target holds an admin row in the team and the count of
admins of the team other than the target is zero (the count excluding the
target, exactly as the source's `user_id != ?` queries compute it). -/
def soleAdmin (target teamId : Nat) (ms : List MemberRow) : Prop :=
  (∃ m ∈ ms, m.userId = target ∧ m.teamId = teamId ∧ m.role = Role.admin) ∧
    ms.countP (fun x => x.teamId == teamId && x.role == Role.admin
      && x.userId != target) = 0

instance (target teamId : Nat) (ms : List MemberRow) :
    Decidable (soleAdmin target teamId ms) := by
  unfold soleAdmin
  infer_instance

/-- Example database: team "acme" (id 1) whose sole admin is user 1, with
user 2 as an ordinary member. -/
def exTeamDB : TeamDB :=
  { teams := [⟨1, "acme"⟩],
    members := [⟨1, 1, Role.admin⟩, ⟨2, 1, Role.member⟩] }


/-- ASCII lowering of a string, the model of JavaScript `toLowerCase()` as
applied to the e-mail and tag-name strings of this code base. -/
def lowerStr (s : String) : String := String.mk (s.data.map Char.toLower)

/-- Column `team_invites.status ENUM('pending','accepted','expired','cancelled')`. -/
inductive InvStatus where
  | pending
  | accepted
  | expired
  | cancelled
deriving DecidableEq

/-- The string MySQL stores for an invite status, used by the
`already been ...` error message of the source. -/
def statusText : InvStatus → String
  | InvStatus.pending => "pending"
  | InvStatus.accepted => "accepted"
  | InvStatus.expired => "expired"
  | InvStatus.cancelled => "cancelled"

/-- One row of `team_invites` (invited_by and created_at omitted: the accept
handler never reads them).  `expiresAt` is a timestamp as a number. -/
structure InviteRow where
  id : Nat
  teamId : Nat
  email : String
  token : String
  status : InvStatus
  expiresAt : Nat
deriving DecidableEq

/-- One row of `users`, reduced to the columns the accept handler reads. -/
structure UserRow where
  id : Nat
  email : String
deriving DecidableEq

/-- The tables touched by `POST /invites/accept` (`routes/teams.js`). -/
structure InvDB where
  users : List UserRow
  invites : List InviteRow
  members : List MemberRow
deriving DecidableEq

/-- `UPDATE team_invites SET status = 'accepted' WHERE id = ?`. -/
def markAccepted (inviteId : Nat) (invs : List InviteRow) : List InviteRow :=
  invs.map (fun i => if i.id == inviteId then { i with status := InvStatus.accepted } else i)

/-- `POST /invites/accept` (`routes/teams.js`): token-required check, invite
lookup by token, expiry check (`expires_at < now`, independent of the stored
status), pending check, case-insensitive e-mail match against the
authenticated user's row, then either the idempotent already-member success
or membership insertion with role=member; both success paths mark the
invite accepted.  `now` is the current time of the request. -/
def acceptInvite (userId : Nat) (token : String) (now : Nat) (s : InvDB) :
    HttpRes × InvDB :=
  if token == "" then (HttpRes.err 400 ("Token is required"), s)
  else
    match s.invites.find? (fun i => i.token == token) with
    | none => (HttpRes.err 404 ("Invite not found"), s)
    | some inv =>
      if inv.expiresAt < now then (HttpRes.err 400 ("This invite has expired"), s)
      else if inv.status != InvStatus.pending then
        (HttpRes.err 400 ("This invite has already been " ++ statusText inv.status), s)
      else
        match s.users.find? (fun u => u.id == userId) with
        | none => (HttpRes.err 500 ("Failed to accept invite"), s)
        | some u =>
          if lowerStr u.email != lowerStr inv.email then
            (HttpRes.err 403 ("This invite was sent to a different email address"), s)
          else if (s.members.find? (fun m => m.userId == userId
              && m.teamId == inv.teamId)).isSome then
            (HttpRes.ok ("You are already a member of this team"),
              { s with invites := markAccepted inv.id s.invites })
          else
            (HttpRes.ok ("You have successfully joined the team"),
              { s with
                  members := s.members ++ [⟨userId, inv.teamId, Role.member⟩],
                  invites := markAccepted inv.id s.invites })


/-- Program counter of one in-flight `POST /invites/accept` request, for
reasoning about two concurrent requests.  Each constructor records the
local variables the JavaScript handler holds between two `db.query`
statements. -/
inductive AccPhase where
  | start
  | haveInvite (inv : InviteRow)
  | haveUser (inv : InviteRow)
  | haveMember (inv : InviteRow) (isMember : Bool)
  | inserted (inv : InviteRow)
  | done (res : HttpRes)
deriving DecidableEq

/-- One atomic database statement of the accept handler (the per-query
small-step version of `acceptInvite`; the handler issues no transaction, so
each `db.query` is a separate atomic step and other requests may interleave
between them).  The extra `find?` guard in the `haveMember _ false` step is
the store rejecting an `INSERT` that violates
`UNIQUE KEY unique_membership (user_id, team_id)`, which the handler's
`catch` turns into a 500 response. -/
def accStep (userId : Nat) (token : String) (now : Nat) :
    AccPhase → InvDB → AccPhase × InvDB
  | AccPhase.start, s =>
    if token == "" then
      (AccPhase.done (HttpRes.err 400 ("Token is required")), s)
    else
      match s.invites.find? (fun i => i.token == token) with
      | none => (AccPhase.done (HttpRes.err 404 ("Invite not found")), s)
      | some inv =>
        if inv.expiresAt < now then
          (AccPhase.done (HttpRes.err 400 ("This invite has expired")), s)
        else if inv.status != InvStatus.pending then
          (AccPhase.done (HttpRes.err 400
            ("This invite has already been " ++ statusText inv.status)), s)
        else (AccPhase.haveInvite inv, s)
  | AccPhase.haveInvite inv, s =>
    match s.users.find? (fun v => v.id == userId) with
    | none => (AccPhase.done (HttpRes.err 500 ("Failed to accept invite")), s)
    | some v =>
      if lowerStr v.email != lowerStr inv.email then
        (AccPhase.done (HttpRes.err 403
          ("This invite was sent to a different email address")), s)
      else (AccPhase.haveUser inv, s)
  | AccPhase.haveUser inv, s =>
    (AccPhase.haveMember inv ((s.members.find? (fun m => m.userId == userId
      && m.teamId == inv.teamId)).isSome), s)
  | AccPhase.haveMember inv true, s =>
    (AccPhase.done (HttpRes.ok ("You are already a member of this team")),
      { s with invites := markAccepted inv.id s.invites })
  | AccPhase.haveMember inv false, s =>
    if (s.members.find? (fun m => m.userId == userId
        && m.teamId == inv.teamId)).isSome then
      (AccPhase.done (HttpRes.err 500 ("Failed to accept invite")), s)
    else
      (AccPhase.inserted inv,
        { s with members := s.members ++ [⟨userId, inv.teamId, Role.member⟩] })
  | AccPhase.inserted inv, s =>
    (AccPhase.done (HttpRes.ok ("You have successfully joined the team")),
      { s with invites := markAccepted inv.id s.invites })
  | AccPhase.done r, s => (AccPhase.done r, s)

/-- Interleaved execution of two concurrent accept requests over the shared
database: the schedule says which request performs its next database
statement. -/
def runTwo (u1 : Nat) (t1 : String) (u2 : Nat) (t2 : String) (now : Nat) :
    List Bool → AccPhase × AccPhase × InvDB → AccPhase × AccPhase × InvDB
  | [], st => st
  | b :: rest, (p1, p2, s) =>
    if b then
      let r := accStep u1 t1 now p1 s
      runTwo u1 t1 u2 t2 now rest (r.1, p2, r.2)
    else
      let r := accStep u2 t2 now p2 s
      runTwo u1 t1 u2 t2 now rest (p1, r.1, r.2)

/-- Database with a pending invite for user 7's e-mail where user 7 is
already a member of the invited team. -/
def exInvMemberDB : InvDB :=
  { users := [⟨7, "b@x.com"⟩],
    invites := [⟨1, 1, "b@x.com", "tok", InvStatus.pending, 100⟩],
    members := [⟨7, 1, Role.member⟩] }

/-- Database with a pending invite for user 7's e-mail where user 7 is not
yet a member of the invited team. -/
def exInvFreshDB : InvDB :=
  { users := [⟨7, "b@x.com"⟩],
    invites := [⟨1, 1, "b@x.com", "tok", InvStatus.pending, 100⟩],
    members := [] }


/-- Column `votes.votable_type ENUM('question','answer')`. -/
inductive VotableType where
  | question
  | answer
deriving DecidableEq

/-- Column `votes.vote_type ENUM('up','down')`. -/
inductive VoteDir where
  | up
  | down
deriving DecidableEq

/-- One row of `votes` (id and created_at omitted). -/
structure VoteRow where
  votableType : VotableType
  votableId : Nat
  userId : Nat
  voteType : VoteDir
deriving DecidableEq

/-- One row of `questions`, reduced to the columns the vote handler
touches. -/
structure QuestionVRow where
  id : Nat
  score : Int
  lastActivityAt : Nat
deriving DecidableEq

/-- One row of `answers`, reduced to the columns the vote handler touches. -/
structure AnswerVRow where
  id : Nat
  questionId : Nat
  score : Int
deriving DecidableEq

/-- The tables touched by `POST /votes` (`routes/votes.js`). -/
structure VoteDB where
  votes : List VoteRow
  questions : List QuestionVRow
  answers : List AnswerVRow
deriving DecidableEq

/-- Row effect of `UPDATE questions SET score = score + ? WHERE id = ?`. -/
def addScoreQ (vid : Nat) (d : Int) (q : QuestionVRow) : QuestionVRow :=
  if q.id == vid then { q with score := q.score + d } else q

/-- Row effect of `UPDATE answers SET score = score + ? WHERE id = ?`. -/
def addScoreA (vid : Nat) (d : Int) (a : AnswerVRow) : AnswerVRow :=
  if a.id == vid then { a with score := a.score + d } else a

/-- `UPDATE ${votableType}s SET score = score + ? WHERE id = ?`: the vote
handler's dynamic table name picks the questions or the answers table. -/
def bumpScore (vt : VotableType) (vid : Nat) (d : Int) (s : VoteDB) : VoteDB :=
  match vt with
  | VotableType.question => { s with questions := s.questions.map (addScoreQ vid d) }
  | VotableType.answer => { s with answers := s.answers.map (addScoreA vid d) }

/-- Row effect of `UPDATE questions SET last_activity_at = CURRENT_TIMESTAMP
WHERE id = ?`. -/
def touchQ (qid now : Nat) (q : QuestionVRow) : QuestionVRow :=
  if q.id == qid then { q with lastActivityAt := now } else q

/-- `UPDATE questions SET last_activity_at = CURRENT_TIMESTAMP WHERE id = ?`. -/
def touchActivity (qid now : Nat) (s : VoteDB) : VoteDB :=
  { s with questions := s.questions.map (touchQ qid now) }

/-- Row effect of `UPDATE votes SET vote_type = ? WHERE votable_type = ? AND
votable_id = ? AND user_id = ?`. -/
def setDir (vt : VotableType) (vid uid : Nat) (dir : VoteDir) (v : VoteRow) :
    VoteRow :=
  if v.votableType == vt && v.votableId == vid && v.userId == uid then
    { v with voteType := dir } else v

/-- `POST /votes` (`routes/votes.js`): look up the caller's existing vote on
the target; same direction deletes the vote and reverses one point,
different direction updates the stored direction and applies a two-point
swing, no existing vote inserts the vote, applies one point, and bumps the
owning question's `last_activity_at` (resolving an answer's question via
`SELECT question_id FROM answers`).  `now` models `CURRENT_TIMESTAMP`. -/
def postVote (userId : Nat) (vt : VotableType) (vid : Nat) (dir : VoteDir)
    (now : Nat) (s : VoteDB) : HttpRes × VoteDB :=
  match s.votes.find? (fun v => v.votableType == vt && v.votableId == vid
      && v.userId == userId) with
  | some ex =>
    if ex.voteType == dir then
      let s1 := { s with votes := s.votes.filter (fun v =>
        !(v.votableType == vt && v.votableId == vid && v.userId == userId)) }
      (HttpRes.ok ("Vote removed"),
        bumpScore vt vid (if dir == VoteDir.up then -1 else 1) s1)
    else
      let s1 := { s with votes := s.votes.map (setDir vt vid userId dir) }
      (HttpRes.ok ("Vote updated"),
        bumpScore vt vid (if dir == VoteDir.up then 2 else -2) s1)
  | none =>
    let s1 := { s with votes := s.votes ++ [⟨vt, vid, userId, dir⟩] }
    let s2 := bumpScore vt vid (if dir == VoteDir.up then 1 else -1) s1
    let s3 :=
      match vt with
      | VotableType.question => touchActivity vid now s2
      | VotableType.answer =>
        match s2.answers.find? (fun a => a.id == vid) with
        | some arow => touchActivity arow.questionId now s2
        | none => s2
    (HttpRes.ok ("Vote added"), s3)

/-- Score of the question or answer the vote targets, as the handler's
`UPDATE ... WHERE id = ?` addresses it. -/
def targetScore (vt : VotableType) (vid : Nat) (s : VoteDB) : Option Int :=
  match vt with
  | VotableType.question =>
    (s.questions.find? (fun q => q.id == vid)).map (fun q => q.score)
  | VotableType.answer =>
    (s.answers.find? (fun a => a.id == vid)).map (fun a => a.score)

/-- `last_activity_at` of a question. -/
def questionActivity (qid : Nat) (s : VoteDB) : Option Nat :=
  (s.questions.find? (fun q => q.id == qid)).map (fun q => q.lastActivityAt)

/-- The caller's stored vote on a target. -/
def voteOf (userId : Nat) (vt : VotableType) (vid : Nat) (s : VoteDB) :
    Option VoteRow :=
  s.votes.find? (fun v => v.votableType == vt && v.votableId == vid
    && v.userId == userId)

/-- Vote database with one question (id 1, score 3, last activity 5) that
user 1 has already upvoted. -/
def exVoteDB : VoteDB :=
  { votes := [⟨VotableType.question, 1, 1, VoteDir.up⟩],
    questions := [⟨1, 3, 5⟩],
    answers := [] }

/-- Vote database with one question (id 1, score 3, last activity 5), one
answer (id 4) on it, and no votes. -/
def exVoteDB2 : VoteDB :=
  { votes := [],
    questions := [⟨1, 3, 5⟩],
    answers := [⟨4, 1, 2⟩] }


/-- One row of `questions` as the accept-answer handler sees it (the JOIN
reads `q.team_id`; `user_id` is carried to express authorship, which the
handler deliberately never checks). -/
structure QuestionMeta where
  id : Nat
  teamId : Nat
  userId : Nat
deriving DecidableEq

/-- One row of `answers` with the acceptance flag. -/
structure AnswerFull where
  id : Nat
  questionId : Nat
  userId : Nat
  isAccepted : Bool
deriving DecidableEq

/-- The tables touched by `POST /answers/:id/accept` (`routes/answers.js`,
served under `src/server.js`'s answers router).  The fire-and-forget
notification insert of the handler touches only the notifications table,
which no claim here reads, and is omitted. -/
structure AcceptDB where
  questions : List QuestionMeta
  answers : List AnswerFull
  members : List MemberRow
deriving DecidableEq

/-- Row effect of `UPDATE answers SET is_accepted = 0 WHERE question_id = ?`. -/
def clearAccepted (qid : Nat) (a : AnswerFull) : AnswerFull :=
  if a.questionId == qid then { a with isAccepted := false } else a

/-- Row effect of `UPDATE answers SET is_accepted = 1 WHERE id = ?`. -/
def setAccepted (aid : Nat) (a : AnswerFull) : AnswerFull :=
  if a.id == aid then { a with isAccepted := true } else a

/-- `POST /answers/:id/accept`: answer-and-question lookup (the JOIN yields
no row when either is missing), team-membership check — membership only, no
authorship check — then clear `is_accepted` on every answer of the question
and set it on the chosen answer. -/
def acceptAnswer (callerId answerId : Nat) (s : AcceptDB) : HttpRes × AcceptDB :=
  match s.answers.find? (fun a => a.id == answerId) with
  | none => (HttpRes.err 404 ("Answer not found"), s)
  | some a =>
    match s.questions.find? (fun q => q.id == a.questionId) with
    | none => (HttpRes.err 404 ("Answer not found"), s)
    | some q =>
      if (s.members.find? (fun m => m.userId == callerId
          && m.teamId == q.teamId)).isNone then
        (HttpRes.err 403 ("Team membership required"), s)
      else
        (HttpRes.ok ("Answer marked as approved successfully"),
          { s with answers :=
              ((s.answers.map (clearAccepted a.questionId)).map
                (setAccepted answerId)) })

/-- The spec invariant: at most one answer per question is accepted. -/
def atMostOneAccepted (ans : List AnswerFull) : Prop :=
  ∀ qid : Nat, ans.countP (fun a => a.questionId == qid && a.isAccepted) ≤ 1

instance (ans : List AnswerFull) : Decidable (atMostOneAccepted ans) := by
  unfold atMostOneAccepted
  have : (∀ a0 ∈ ans, ans.countP (fun a => a.questionId == a0.questionId
      && a.isAccepted) ≤ 1) ↔
      (∀ qid : Nat, ans.countP (fun a => a.questionId == qid
        && a.isAccepted) ≤ 1) := by
    constructor
    · intro h qid
      by_cases hpos : 0 < ans.countP (fun a => a.questionId == qid && a.isAccepted)
      · obtain ⟨a0, ha0, hp⟩ := List.countP_pos_iff.mp hpos
        simp only [Bool.and_eq_true, beq_iff_eq] at hp
        have := h a0 ha0
        rw [hp.1] at this
        exact this
      · omega
    · intro h a0 _
      exact h a0.questionId
  exact decidable_of_iff _ this

/-- Accept-answer database: question 1 (team 1, author 9) with answers 4
(not accepted) and 5 (accepted), both by user 9; user 2 is a plain member
of team 1 and not the question's author. -/
def exAcceptDB : AcceptDB :=
  { questions := [⟨1, 1, 9⟩],
    answers := [⟨4, 1, 9, false⟩, ⟨5, 1, 9, true⟩],
    members := [⟨2, 1, Role.member⟩] }


/-- Column `comments.parent_type ENUM('question','answer')`. -/
inductive ParentKind where
  | question
  | answer
deriving DecidableEq

/-- One row of `comments` (body and timestamps omitted: the delete handler
reads only `user_id`, and the parent columns locate the comment's team). -/
structure CommentRow where
  id : Nat
  parentType : ParentKind
  parentId : Nat
  userId : Nat
deriving DecidableEq

/-- The tables around `DELETE /comments/:id` (`routes/comments.js`):
questions and answers only serve to resolve a comment's team for stating
the claim — the delete handler itself reads none of them. -/
structure CommentDB where
  questions : List QuestionMeta
  answers : List AnswerFull
  comments : List CommentRow
  members : List MemberRow
deriving DecidableEq

/-- `DELETE /comments/:id`: comment lookup, then a single authorship check
(`comments[0].user_id !== req.user.userId`) — no membership or admin-role
query is issued — then `DELETE FROM comments WHERE id = ?`. -/
def deleteComment (callerId commentId : Nat) (s : CommentDB) :
    HttpRes × CommentDB :=
  match s.comments.find? (fun c => c.id == commentId) with
  | none => (HttpRes.err 404 ("Comment not found"), s)
  | some c =>
    if c.userId != callerId then
      (HttpRes.err 403 ("Not authorized to delete this comment"), s)
    else
      (HttpRes.ok ("Comment deleted successfully"),
        { s with comments := s.comments.filter (fun x => !(x.id == commentId)) })

/-- The team a comment belongs to, resolved through its parent question or
answer as the schema's foreign keys define it. -/
def commentTeam (commentId : Nat) (s : CommentDB) : Option Nat :=
  match s.comments.find? (fun c => c.id == commentId) with
  | none => none
  | some c =>
    match c.parentType with
    | ParentKind.question =>
      (s.questions.find? (fun q => q.id == c.parentId)).map (fun q => q.teamId)
    | ParentKind.answer =>
      match s.answers.find? (fun a => a.id == c.parentId) with
      | none => none
      | some a =>
        (s.questions.find? (fun q => q.id == a.questionId)).map
          (fun q => q.teamId)

/-- Comment database: comment 1 by user 1 sits on question 1 of team 1;
user 2 is an admin of team 1 and user 1 an ordinary member. -/
def exCommentDB : CommentDB :=
  { questions := [⟨1, 1, 9⟩],
    answers := [],
    comments := [⟨1, ParentKind.question, 1, 1⟩],
    members := [⟨2, 1, Role.admin⟩, ⟨1, 1, Role.member⟩] }


/-- One row of `tags` (description and created_at omitted). -/
structure TagRow where
  id : Nat
  teamId : Nat
  name : String
  questionCount : Nat
deriving DecidableEq

/-- One row of `question_tags`, `PRIMARY KEY (question_id, tag_id)`. -/
structure QLink where
  questionId : Nat
  tagId : Nat
deriving DecidableEq

/-- The tables touched by the tag-replacement part of `PUT /questions/:id`
and by `DELETE /questions/:id` (`routes/questions.js`).  `nextTagId` models
the AUTO_INCREMENT counter of the tags table.  Answers, comments, votes and
bookmarks also cascade on question deletion but carry no tag counts, so
this domain omits them. -/
structure TagDB where
  questions : List QuestionMeta
  tags : List TagRow
  questionTags : List QLink
  members : List MemberRow
  nextTagId : Nat
deriving DecidableEq

/-- JavaScript whitespace trimmed by `String.prototype.trim` as it occurs
in tag strings. -/
def isJsSpace (c : Char) : Bool :=
  c == ' ' || c == '\t' || c == '\n' || c == '\r'

/-- JavaScript `t.trim()`. -/
def jsTrim (s : String) : String :=
  String.mk (((s.data.dropWhile isJsSpace).reverse.dropWhile isJsSpace).reverse)

/-- Splitting helper for JavaScript `tags.split(",")`. -/
def splitCommasAux : List Char → List Char → List String
  | [], acc => [String.mk acc.reverse]
  | c :: rest, acc =>
    if c == ',' then String.mk acc.reverse :: splitCommasAux rest []
    else splitCommasAux rest (c :: acc)

/-- JavaScript `tags.split(",")`. -/
def splitCommas (s : String) : List String := splitCommasAux s.data []

/-- The tag-array computation of `PUT /questions/:id`:
`tags.split(",").map(t => t.trim()).filter(t => t.length > 0).slice(0, 5)`. -/
def parseTags (tags : String) : List String :=
  (((splitCommas tags).map jsTrim).filter (fun t => 0 < t.length)).take 5

/-- Row effect of `UPDATE tags SET question_count =
GREATEST(0, question_count - 1) WHERE id = ?` (natural-number subtraction
is already floored at zero). -/
def decTagCount (tid : Nat) (t : TagRow) : TagRow :=
  if t.id == tid then { t with questionCount := t.questionCount - 1 } else t

/-- Row effect of `UPDATE tags SET question_count = question_count + 1
WHERE id = ?`. -/
def incTagCount (tid : Nat) (t : TagRow) : TagRow :=
  if t.id == tid then { t with questionCount := t.questionCount + 1 } else t

/-- The decrement loop over the question's current tag links. -/
def decrementAll (tids : List Nat) (tags : List TagRow) : List TagRow :=
  tids.foldl (fun acc tid => acc.map (decTagCount tid)) tags

/-- One iteration of the tag-attach loop: get-or-create the lowercased tag
for the team, insert the question-tag link, increment the tag's count.  An
insert that would duplicate the `(question_id, tag_id)` primary key is
rejected by the store; the handler's `catch` turns it into a 500, with the
statements already issued left in place (there is no transaction). -/
def attachTag (teamId qid : Nat) (nm : String) (s : TagDB) : HttpRes × TagDB :=
  let lower := lowerStr nm
  match s.tags.find? (fun t => t.teamId == teamId && t.name == lower) with
  | some t =>
    if (s.questionTags.find? (fun l => l.questionId == qid
        && l.tagId == t.id)).isSome then
      (HttpRes.err 500 ("Failed to update question"), s)
    else
      (HttpRes.ok (""),
        { s with questionTags := s.questionTags ++ [⟨qid, t.id⟩],
                 tags := s.tags.map (incTagCount t.id) })
  | none =>
    let tid := s.nextTagId
    let s1 : TagDB := { s with tags := s.tags ++ [⟨tid, teamId, lower, 0⟩],
                               nextTagId := tid + 1 }
    if (s1.questionTags.find? (fun l => l.questionId == qid
        && l.tagId == tid)).isSome then
      (HttpRes.err 500 ("Failed to update question"), s1)
    else
      (HttpRes.ok (""),
        { s1 with questionTags := s1.questionTags ++ [⟨qid, tid⟩],
                  tags := s1.tags.map (incTagCount tid) })

/-- The attach loop over the new tag names, stopping at the first failing
statement with the partial state kept (no transaction). -/
def attachTags (teamId qid : Nat) (names : List String) (s : TagDB) :
    HttpRes × TagDB :=
  match names with
  | [] => (HttpRes.ok (""), s)
  | n :: rest =>
    match attachTag teamId qid n s with
    | (HttpRes.ok _, s1) => attachTags teamId qid rest s1
    | e => e

/-- The tag-replacement part of `PUT /questions/:id`: ownership check, then
decrement question_count for every currently linked tag, delete all links
of the question, and re-attach the parsed tag names (lowercased,
get-or-create per team, insert link, increment count). -/
def updateQuestionTags (callerId qid : Nat) (tags : String) (s : TagDB) :
    HttpRes × TagDB :=
  match s.questions.find? (fun q => q.id == qid) with
  | none => (HttpRes.err 404 ("Question not found"), s)
  | some q =>
    if q.userId != callerId then
      (HttpRes.err 403 ("Not authorized to edit this question"), s)
    else
      let tagArray := parseTags tags
      let current := (s.questionTags.filter
        (fun l => l.questionId == qid)).map (fun l => l.tagId)
      let s1 := { s with tags := decrementAll current s.tags }
      let s2 := { s1 with questionTags := (s1.questionTags.filter
        (fun l => !(l.questionId == qid))) }
      match attachTags q.teamId qid tagArray s2 with
      | (HttpRes.ok _, s3) => (HttpRes.ok ("Question updated successfully"), s3)
      | e => e

/-- `DELETE /questions/:id`: question lookup, owner-or-admin check, then
`DELETE FROM questions WHERE id = ?`; the question-tag links disappear via
the store's `ON DELETE CASCADE`, and no tag count is touched. -/
def deleteQuestion (callerId qid : Nat) (s : TagDB) : HttpRes × TagDB :=
  match s.questions.find? (fun q => q.id == qid) with
  | none => (HttpRes.err 404 ("Question not found"), s)
  | some q =>
    if q.userId != callerId
        && (match s.members.find? (fun m => m.userId == callerId
            && m.teamId == q.teamId) with
          | none => true
          | some m => m.role != Role.admin) then
      (HttpRes.err 403 ("Not authorized to delete this question"), s)
    else
      (HttpRes.ok ("Question deleted successfully"),
        { s with questions := s.questions.filter (fun x => !(x.id == qid)),
                 questionTags := (s.questionTags.filter
                   (fun l => !(l.questionId == qid))) })

/-- The spec invariant: every tag's denormalized `question_count` equals
the number of its question-tag links. -/
def tagCountsCorrect (s : TagDB) : Prop :=
  ∀ t ∈ s.tags, t.questionCount =
    s.questionTags.countP (fun l => l.tagId == t.id)

instance (s : TagDB) : Decidable (tagCountsCorrect s) := by
  unfold tagCountsCorrect
  infer_instance

/-- The AUTO_INCREMENT discipline: every existing tag id is below the
counter. -/
def tagsFresh (s : TagDB) : Prop := ∀ t ∈ s.tags, t.id < s.nextTagId

instance (s : TagDB) : Decidable (tagsFresh s) := by
  unfold tagsFresh
  infer_instance

/-- The links' foreign key into tags. -/
def linksValid (s : TagDB) : Prop :=
  ∀ l ∈ s.questionTags, ∃ t ∈ s.tags, t.id = l.tagId

instance (s : TagDB) : Decidable (linksValid s) := by
  unfold linksValid
  infer_instance

/-- Tag database: question 1 (team 1, author 9) carries tag "old" (id 1,
count 1). -/
def exTagDB : TagDB :=
  { questions := [⟨1, 1, 9⟩],
    tags := [⟨1, 1, "old", 1⟩],
    questionTags := [⟨1, 1⟩],
    members := [],
    nextTagId := 2 }

-- ===================== THEOREMS =====================

theorem requireTeamAdmin_exists {uid tid : Nat} {ms : List MemberRow}
    (h : requireTeamAdmin uid tid ms = true) :
    ∃ m ∈ ms, m.userId = uid ∧ m.teamId = tid ∧ m.role = Role.admin := by
  unfold requireTeamAdmin at h
  split at h
  case h_1 m heq =>
    refine ⟨m, List.mem_of_find?_eq_some heq, ?_, ?_, ?_⟩
    · have := List.find?_some heq
      simp only [Bool.and_eq_true, beq_iff_eq] at this
      exact this.1
    · have := List.find?_some heq
      simp only [Bool.and_eq_true, beq_iff_eq] at this
      exact this.2
    · simpa [beq_iff_eq] using h
  case h_2 => exact absurd h (by simp)

theorem updRole_teamId (tid target : Nat) (r : Role) (m : MemberRow) :
    (updRole tid target r m).teamId = m.teamId := by
  unfold updRole
  split <;> rfl

theorem updRole_userId (tid target : Nat) (r : Role) (m : MemberRow) :
    (updRole tid target r m).userId = m.userId := by
  unfold updRole
  split <;> rfl

theorem updRole_eq_self_of_user (tid target : Nat) (r : Role) (m : MemberRow)
    (h : m.userId ≠ target) : updRole tid target r m = m := by
  unfold updRole
  rw [if_neg]
  simp [h]

theorem updRole_eq_self_of_team (tid target : Nat) (r : Role) (m : MemberRow)
    (h : m.teamId ≠ tid) : updRole tid target r m = m := by
  unfold updRole
  rw [if_neg]
  simp [h]

theorem updRole_role (tid target : Nat) (r : Role) (m : MemberRow) :
    (updRole tid target r m).role = r ∨ (updRole tid target r m).role = m.role := by
  unfold updRole
  split
  · exact Or.inl rfl
  · exact Or.inr rfl

theorem changeRole_preserves_adminInv (s : TeamDB) (req tid target : Nat)
    (r : Role) (hinv : adminInv s.members) :
    adminInv ((changeRole req tid target r s).2).members := by
  unfold changeRole
  split
  · exact hinv
  · split
    · exact hinv
    · split
      · exact hinv
      · rename_i hadm hself hcnt
        intro t ht
        obtain ⟨m', hm', hteq⟩ := ht
        simp only at hm'
        obtain ⟨m0, hm0, hfm0⟩ := List.mem_map.mp hm'
        have hteam0 : m0.teamId = t := by
          rw [← hteq, ← hfm0, updRole_teamId]
        obtain ⟨a, ha, hat, har⟩ := hinv t ⟨m0, hm0, hteam0⟩
        cases r with
        | admin =>
          refine ⟨updRole tid target Role.admin a,
            List.mem_map_of_mem _ ha, ?_, ?_⟩
          · rw [updRole_teamId]; exact hat
          · rcases updRole_role tid target Role.admin a with h | h
            · exact h
            · rw [h]; exact har
        | member =>
          have hcnt' : s.members.countP (fun m => m.teamId == tid
              && m.role == Role.admin && m.userId != target) ≠ 0 := by
            intro h0
            exact hcnt (by simp [h0])
          obtain ⟨x, hx, hpx⟩ :=
            List.countP_pos_iff.mp (Nat.pos_of_ne_zero hcnt')
          simp only [Bool.and_eq_true, beq_iff_eq, bne_iff_ne] at hpx
          obtain ⟨⟨hx1, hx2⟩, hx3⟩ := hpx
          by_cases htid : t = tid
          · subst htid
            refine ⟨x, ?_, hx1, hx2⟩
            rw [← updRole_eq_self_of_user t target Role.member x hx3]
            exact List.mem_map_of_mem _ hx
          · refine ⟨a, ?_, hat, har⟩
            rw [← updRole_eq_self_of_team tid target Role.member a
              (by rw [hat]; exact htid)]
            exact List.mem_map_of_mem _ ha

theorem removeMember_preserves_adminInv (s : TeamDB) (req tid target : Nat)
    (huniq : uniqueMembers s.members) (hinv : adminInv s.members) :
    adminInv ((removeMember req tid target s).2).members := by
  unfold removeMember
  split
  · exact hinv
  · split
    · exact hinv
    · split
      · exact hinv
      · rename_i hadm hself m hfind
        split
        · exact hinv
        · rename_i hguard
          intro t ht
          obtain ⟨m', hm'f, hteq⟩ := ht
          simp only at hm'f
          have hm' := (List.mem_filter.mp hm'f).1
          obtain ⟨a, ha, hat, har⟩ := hinv t ⟨m', hm', hteq⟩
          by_cases hsurv : (!(a.teamId == tid && a.userId == target)) = true
          · exact ⟨a, List.mem_filter.mpr ⟨ha, hsurv⟩, hat, har⟩
          · -- the admin a is exactly the removed row
            simp only [Bool.not_eq_true', Bool.not_eq_false, Bool.and_eq_true,
              beq_iff_eq] at hsurv
            obtain ⟨ha1, ha2⟩ := hsurv
            have hmmem := List.mem_of_find?_eq_some hfind
            have hmpred := List.find?_some hfind
            simp only [Bool.and_eq_true, beq_iff_eq] at hmpred
            have ham : a = m :=
              huniq a ha m hmmem (by rw [ha2, hmpred.2]) (by rw [ha1, hmpred.1])
            have hmadmin : m.role = Role.admin := by rw [← ham]; exact har
            have hcnt' : s.members.countP (fun x => x.teamId == tid
                && x.role == Role.admin && x.userId != target) ≠ 0 := by
              intro h0
              exact hguard (by simp [h0, hmadmin])
            obtain ⟨x, hx, hpx⟩ :=
              List.countP_pos_iff.mp (Nat.pos_of_ne_zero hcnt')
            have hpx' := hpx
            simp only [Bool.and_eq_true, beq_iff_eq, bne_iff_ne] at hpx'
            obtain ⟨⟨hx1, hx2⟩, hx3⟩ := hpx'
            refine ⟨x, List.mem_filter.mpr ⟨hx, ?_⟩, ?_, hx2⟩
            · simp [hx3]
            · rw [hx1, ← ha1, hat]

theorem leaveTeam_preserves_adminInv (s : TeamDB) (uid : Nat) (slug : String)
    (huniq : uniqueMembers s.members) (hinv : adminInv s.members) :
    adminInv ((leaveTeam uid slug s).2).members := by
  unfold leaveTeam
  split
  · exact hinv
  · rename_i tr htr
    split
    · exact hinv
    · rename_i m hfind
      split
      · exact hinv
      · rename_i hguard
        intro t ht
        obtain ⟨m', hm'f, hteq⟩ := ht
        simp only at hm'f
        have hm' := (List.mem_filter.mp hm'f).1
        obtain ⟨a, ha, hat, har⟩ := hinv t ⟨m', hm', hteq⟩
        by_cases hsurv : (!(a.userId == uid && a.teamId == tr.id)) = true
        · exact ⟨a, List.mem_filter.mpr ⟨ha, hsurv⟩, hat, har⟩
        · simp only [Bool.not_eq_true', Bool.not_eq_false, Bool.and_eq_true,
            beq_iff_eq] at hsurv
          obtain ⟨ha1, ha2⟩ := hsurv
          have hmmem := List.mem_of_find?_eq_some hfind
          have hmpred := List.find?_some hfind
          simp only [Bool.and_eq_true, beq_iff_eq] at hmpred
          have ham : a = m :=
            huniq a ha m hmmem (by rw [ha1, hmpred.1]) (by rw [ha2, hmpred.2])
          have hmadmin : m.role = Role.admin := by rw [← ham]; exact har
          -- the guard is false, and the caller's row is an admin row, so
          -- either another admin exists or no other member remains
          by_cases hcnt : s.members.countP (fun x => x.teamId == tr.id
              && x.role == Role.admin && x.userId != uid) = 0
          · -- then no other member of the team may remain
            exfalso
            have hothers : s.members.countP
                (fun x => x.teamId == tr.id && x.userId != uid) = 0 := by
              by_contra hpos
              exact hguard (by simp [hmadmin, hcnt, Nat.pos_of_ne_zero hpos])
            -- yet the surviving row m' is another member of the team
            have hm'surv := (List.mem_filter.mp hm'f).2
            simp only [Bool.not_eq_true', Bool.and_eq_true, beq_iff_eq,
              Bool.and_eq_false_iff, beq_eq_false_iff_ne] at hm'surv
            have hm't : m'.teamId = tr.id := by rw [hteq, ← hat, ha2]
            have hm'u : m'.userId ≠ uid := by
              rcases hm'surv with h | h
              · exact h
              · exact absurd hm't h
            have : 0 < s.members.countP
                (fun x => x.teamId == tr.id && x.userId != uid) :=
              List.countP_pos_iff.mpr ⟨m', hm', by simp [hm't, hm'u]⟩
            omega
          · obtain ⟨x, hx, hpx⟩ :=
              List.countP_pos_iff.mp (Nat.pos_of_ne_zero hcnt)
            simp only [Bool.and_eq_true, beq_iff_eq, bne_iff_ne] at hpx
            obtain ⟨⟨hx1, hx2⟩, hx3⟩ := hpx
            refine ⟨x, List.mem_filter.mpr ⟨hx, by simp [hx3]⟩, ?_, hx2⟩
            rw [hx1, ← ha2, hat]

theorem soleAdmin_countP_contradiction {target tid : Nat} {ms : List MemberRow}
    {mreq : MemberRow} (hsole : soleAdmin target tid ms) (hmem : mreq ∈ ms)
    (hu : mreq.userId ≠ target) (ht : mreq.teamId = tid)
    (hr : mreq.role = Role.admin) : False := by
  have := List.countP_eq_zero.mp hsole.2 mreq hmem
  simp only [Bool.and_eq_true, beq_iff_eq, bne_iff_ne] at this
  exact this ⟨⟨ht, hr⟩, hu⟩

theorem changeRole_soleAdmin_rejected (s : TeamDB) (req tid target : Nat)
    (hsole : soleAdmin target tid s.members) :
    (∃ st msg, (changeRole req tid target Role.member s).1 = HttpRes.err st msg) ∧
      (changeRole req tid target Role.member s).2 = s := by
  unfold changeRole
  by_cases hadm : requireTeamAdmin req tid s.members = true
  · by_cases hself : target = req
    · rw [if_neg (by simp [hadm]), if_pos (by simp [hself])]
      exact ⟨⟨400, _, rfl⟩, rfl⟩
    · exfalso
      obtain ⟨mreq, hmem, hu, ht, hr⟩ := requireTeamAdmin_exists hadm
      exact soleAdmin_countP_contradiction hsole hmem
        (by rw [hu]; exact fun h => hself h.symm) ht hr
  · rw [if_pos (by simp [hadm])]
    exact ⟨⟨403, _, rfl⟩, rfl⟩

theorem removeMember_soleAdmin_rejected (s : TeamDB) (req tid target : Nat)
    (hsole : soleAdmin target tid s.members) :
    (∃ st msg, (removeMember req tid target s).1 = HttpRes.err st msg) ∧
      (removeMember req tid target s).2 = s := by
  unfold removeMember
  by_cases hadm : requireTeamAdmin req tid s.members = true
  · by_cases hself : target = req
    · rw [if_neg (by simp [hadm]), if_pos (by simp [hself])]
      exact ⟨⟨400, _, rfl⟩, rfl⟩
    · exfalso
      obtain ⟨mreq, hmem, hu, ht, hr⟩ := requireTeamAdmin_exists hadm
      exact soleAdmin_countP_contradiction hsole hmem
        (by rw [hu]; exact fun h => hself h.symm) ht hr
  · rw [if_pos (by simp [hadm])]
    exact ⟨⟨403, _, rfl⟩, rfl⟩

theorem leaveTeam_soleAdmin_rejected (s : TeamDB) (uid : Nat) (slug : String)
    (tr : TeamRow) (htr : s.teams.find? (fun t => t.slug == slug) = some tr)
    (huniq : uniqueMembers s.members) (hsole : soleAdmin uid tr.id s.members)
    (hother : ∃ m ∈ s.members, m.teamId = tr.id ∧ m.userId ≠ uid) :
    (leaveTeam uid slug s).1 = HttpRes.err 400
        ("You are the only admin. Please promote another member to admin before leaving.") ∧
      (leaveTeam uid slug s).2 = s := by
  obtain ⟨arow, hamem, hau, hat, har⟩ := hsole.1
  unfold leaveTeam
  split
  · rename_i heq
    rw [htr] at heq
    exact absurd heq (by simp)
  · rename_i t heq
    rw [htr] at heq
    injection heq with htt
    subst htt
    split
    · rename_i hf
      exfalso
      have := List.find?_eq_none.mp hf arow hamem
      simp [hau, hat] at this
    · rename_i m0 hf
      have hm0mem := List.mem_of_find?_eq_some hf
      have hm0pred := List.find?_some hf
      simp only [Bool.and_eq_true, beq_iff_eq] at hm0pred
      have hm0a : m0 = arow :=
        huniq m0 hm0mem arow hamem (by rw [hm0pred.1, hau])
          (by rw [hm0pred.2, hat])
      have hm0admin : m0.role = Role.admin := by rw [hm0a]; exact har
      obtain ⟨mo, hmo, hmot, hmou⟩ := hother
      have hpos : 0 < s.members.countP
          (fun x => x.teamId == tr.id && x.userId != uid) :=
        List.countP_pos_iff.mpr ⟨mo, hmo, by simp [hmot, hmou]⟩
      rw [if_pos (by simp [hm0admin, hsole.2, hpos])]
      exact ⟨rfl, rfl⟩

theorem changeRole_ok_or_unchanged (s : TeamDB) (req tid target : Nat) (r : Role) :
    (∃ msg, (changeRole req tid target r s).1 = HttpRes.ok msg) ∨
      (changeRole req tid target r s).2 = s := by
  unfold changeRole
  split
  · exact Or.inr rfl
  · split
    · exact Or.inr rfl
    · split
      · exact Or.inr rfl
      · exact Or.inl ⟨_, rfl⟩

theorem removeMember_ok_or_unchanged (s : TeamDB) (req tid target : Nat) :
    (∃ msg, (removeMember req tid target s).1 = HttpRes.ok msg) ∨
      (removeMember req tid target s).2 = s := by
  unfold removeMember
  split
  · exact Or.inr rfl
  · split
    · exact Or.inr rfl
    · split
      · exact Or.inr rfl
      · split
        · exact Or.inr rfl
        · exact Or.inl ⟨_, rfl⟩

theorem leaveTeam_ok_or_unchanged (s : TeamDB) (uid : Nat) (slug : String) :
    (∃ msg, (leaveTeam uid slug s).1 = HttpRes.ok msg) ∨
      (leaveTeam uid slug s).2 = s := by
  unfold leaveTeam
  split
  · exact Or.inr rfl
  · split
    · exact Or.inr rfl
    · split
      · exact Or.inr rfl
      · exact Or.inl ⟨_, rfl⟩

/-- C1: for every team with at least one member, the role-change,
member-removal, and self-leave operations preserve the invariant that the
team has at least one admin membership (given the schema's unique
(user, team) key): demotion of the sole admin, removal of the sole admin,
and a sole admin leaving while another member remains are each rejected
with an error, every rejected call leaves the membership set completely
unchanged, and the admin count used by the checks excludes the target
(built into `soleAdmin`). -/
theorem C1_last_admin_invariant :
    (∀ (s : TeamDB) (req tid target : Nat) (r : Role),
      adminInv s.members →
      adminInv ((changeRole req tid target r s).2).members) ∧
    (∀ (s : TeamDB) (req tid target : Nat),
      uniqueMembers s.members → adminInv s.members →
      adminInv ((removeMember req tid target s).2).members) ∧
    (∀ (s : TeamDB) (uid : Nat) (slug : String),
      uniqueMembers s.members → adminInv s.members →
      adminInv ((leaveTeam uid slug s).2).members) ∧
    (∀ (s : TeamDB) (req tid target : Nat),
      soleAdmin target tid s.members →
      (∃ st msg, (changeRole req tid target Role.member s).1 = HttpRes.err st msg) ∧
        (changeRole req tid target Role.member s).2 = s) ∧
    (∀ (s : TeamDB) (req tid target : Nat),
      soleAdmin target tid s.members →
      (∃ st msg, (removeMember req tid target s).1 = HttpRes.err st msg) ∧
        (removeMember req tid target s).2 = s) ∧
    (∀ (s : TeamDB) (uid : Nat) (slug : String) (tr : TeamRow),
      s.teams.find? (fun t => t.slug == slug) = some tr →
      uniqueMembers s.members → soleAdmin uid tr.id s.members →
      (∃ m ∈ s.members, m.teamId = tr.id ∧ m.userId ≠ uid) →
      (leaveTeam uid slug s).1 = HttpRes.err 400
          ("You are the only admin. Please promote another member to admin before leaving.") ∧
        (leaveTeam uid slug s).2 = s) ∧
    (∀ (s : TeamDB) (req tid target : Nat) (r : Role),
      (∃ msg, (changeRole req tid target r s).1 = HttpRes.ok msg) ∨
        (changeRole req tid target r s).2 = s) ∧
    (∀ (s : TeamDB) (req tid target : Nat),
      (∃ msg, (removeMember req tid target s).1 = HttpRes.ok msg) ∨
        (removeMember req tid target s).2 = s) ∧
    (∀ (s : TeamDB) (uid : Nat) (slug : String),
      (∃ msg, (leaveTeam uid slug s).1 = HttpRes.ok msg) ∨
        (leaveTeam uid slug s).2 = s) :=
  ⟨fun s req tid target r hinv =>
      changeRole_preserves_adminInv s req tid target r hinv,
    fun s req tid target hu hinv =>
      removeMember_preserves_adminInv s req tid target hu hinv,
    fun s uid slug hu hinv =>
      leaveTeam_preserves_adminInv s uid slug hu hinv,
    fun s req tid target hsole =>
      changeRole_soleAdmin_rejected s req tid target hsole,
    fun s req tid target hsole =>
      removeMember_soleAdmin_rejected s req tid target hsole,
    fun s uid slug tr htr hu hsole hother =>
      leaveTeam_soleAdmin_rejected s uid slug tr htr hu hsole hother,
    fun s req tid target r =>
      changeRole_ok_or_unchanged s req tid target r,
    fun s req tid target =>
      removeMember_ok_or_unchanged s req tid target,
    fun s uid slug =>
      leaveTeam_ok_or_unchanged s uid slug⟩

/-- C1 witness: in the two-member team whose only admin is user 1, the sole
admin's attempt to leave is rejected with the error of the source and the
database is unchanged. -/
theorem C1_last_admin_invariant_witness :
    (leaveTeam 1 "acme" exTeamDB).1 = HttpRes.err 400
        ("You are the only admin. Please promote another member to admin before leaving.") ∧
      (leaveTeam 1 "acme" exTeamDB).2 = exTeamDB :=
  C1_last_admin_invariant.2.2.2.2.2.1 exTeamDB 1 "acme" ⟨1, "acme"⟩
    (by decide) (by decide) (by decide)
    ⟨⟨2, 1, Role.member⟩, by decide, by decide, by decide⟩

/-- C4: a role-change request or a member-removal request whose target is
the requesting admin is rejected with the self-operation error of the
source, and the database is returned unchanged. -/
theorem C4_self_operations_rejected :
    ∀ (s : TeamDB) (req tid : Nat) (r : Role),
      requireTeamAdmin req tid s.members = true →
      changeRole req tid req r s =
          (HttpRes.err 400 ("You cannot change your own role"), s) ∧
        removeMember req tid req s =
          (HttpRes.err 400 ("You cannot remove yourself from the team"), s) := by
  intro s req tid r hadm
  constructor
  · unfold changeRole
    rw [if_neg (by simp [hadm]), if_pos (by simp)]
  · unfold removeMember
    rw [if_neg (by simp [hadm]), if_pos (by simp)]

/-- C4 witness: admin 1 of team 1 attempting to change their own role or to
remove themself is rejected and the database is unchanged. -/
theorem C4_self_operations_rejected_witness :
    changeRole 1 1 1 Role.member exTeamDB =
        (HttpRes.err 400 ("You cannot change your own role"), exTeamDB) ∧
      removeMember 1 1 1 exTeamDB =
        (HttpRes.err 400 ("You cannot remove yourself from the team"), exTeamDB) :=
  C4_self_operations_rejected exTeamDB 1 1 Role.member (by decide)

/-- C2: for every invite-acceptance request carrying a token (by an
authenticated user present in `users`), `acceptInvite` fails 404 when no
invite has the token; otherwise fails 400 expired when the current time is
past `expires_at`, regardless of the stored status; otherwise fails 400
invalid-state when the stored status is not pending; otherwise fails 403
when the accepter's e-mail does not case-insensitively equal the invite's
e-mail; otherwise, when the user is already a member of the invite's team it
only marks the invite accepted and succeeds without touching the membership
table; otherwise it appends a role=member membership and marks the invite
accepted. -/
theorem C2_accept_invite_cases :
    ∀ (s : InvDB) (userId : Nat) (token : String) (now : Nat) (u : UserRow),
      token ≠ "" →
      s.users.find? (fun x => x.id == userId) = some u →
      ((s.invites.find? (fun i => i.token == token) = none →
        acceptInvite userId token now s = (HttpRes.err 404 ("Invite not found"), s)) ∧
      ∀ inv, s.invites.find? (fun i => i.token == token) = some inv →
        ((inv.expiresAt < now →
          acceptInvite userId token now s =
            (HttpRes.err 400 ("This invite has expired"), s)) ∧
        (¬ inv.expiresAt < now → inv.status ≠ InvStatus.pending →
          acceptInvite userId token now s =
            (HttpRes.err 400 ("This invite has already been " ++ statusText inv.status), s)) ∧
        (¬ inv.expiresAt < now → inv.status = InvStatus.pending →
          lowerStr u.email ≠ lowerStr inv.email →
          acceptInvite userId token now s =
            (HttpRes.err 403 ("This invite was sent to a different email address"), s)) ∧
        (¬ inv.expiresAt < now → inv.status = InvStatus.pending →
          lowerStr u.email = lowerStr inv.email →
          (∃ m ∈ s.members, m.userId = userId ∧ m.teamId = inv.teamId) →
          acceptInvite userId token now s =
            (HttpRes.ok ("You are already a member of this team"),
              { s with invites := markAccepted inv.id s.invites })) ∧
        (¬ inv.expiresAt < now → inv.status = InvStatus.pending →
          lowerStr u.email = lowerStr inv.email →
          (∀ m ∈ s.members, ¬(m.userId = userId ∧ m.teamId = inv.teamId)) →
          acceptInvite userId token now s =
            (HttpRes.ok ("You have successfully joined the team"),
              { s with
                  members := s.members ++ [⟨userId, inv.teamId, Role.member⟩],
                  invites := markAccepted inv.id s.invites })))) := by
  intro s userId token now u htok hu
  have htok' : (token == "") = false := by
    simp [htok]
  constructor
  · intro hnone
    simp [acceptInvite, htok', hnone]
  · intro inv hinv
    refine ⟨?_, ?_, ?_, ?_, ?_⟩
    · intro hexp
      simp [acceptInvite, htok', hinv, hexp]
    · intro hexp hst
      simp [acceptInvite, htok', hinv, hexp, hu, hst]
    · intro hexp hst hmail
      simp [acceptInvite, htok', hinv, hexp, hu, hst, hmail]
    · intro hexp hst hmail hmem
      have hsome : (s.members.find? (fun m => m.userId == userId
          && m.teamId == inv.teamId)).isSome = true := by
        rw [List.find?_isSome]
        obtain ⟨m, hm, h1, h2⟩ := hmem
        exact ⟨m, hm, by simp [h1, h2]⟩
      simp [acceptInvite, htok', hinv, hexp, hu, hst, hmail, hsome]
    · intro hexp hst hmail hmem
      have hnone2 : s.members.find? (fun m => m.userId == userId
          && m.teamId == inv.teamId) = none := by
        rw [List.find?_eq_none]
        intro m hm
        simp only [Bool.and_eq_true, beq_iff_eq, not_and]
        intro h1 h2
        exact hmem m hm ⟨h1, h2⟩
      simp [acceptInvite, htok', hinv, hexp, hu, hst, hmail, hnone2]

/-- C2 witness: user 7 with e-mail differing from the invite's only in
case accepts a pending, unexpired invite to team 1 and is appended as a
role=member membership while the invite is marked accepted. -/
theorem C2_accept_invite_cases_witness :
    acceptInvite 7 "tok" 50
        ({ users := [⟨7, "B@x.com"⟩],
           invites := [⟨1, 1, "b@X.com", "tok", InvStatus.pending, 100⟩],
           members := [] } : InvDB) =
      (HttpRes.ok ("You have successfully joined the team"),
        { users := [⟨7, "B@x.com"⟩],
          invites := [⟨1, 1, "b@X.com", "tok", InvStatus.accepted, 100⟩],
          members := [⟨7, 1, Role.member⟩] }) := by
  have h := (C2_accept_invite_cases
      ({ users := [⟨7, "B@x.com"⟩],
         invites := [⟨1, 1, "b@X.com", "tok", InvStatus.pending, 100⟩],
         members := [] } : InvDB) 7 "tok" 50 ⟨7, "B@x.com"⟩
      (by decide) (by decide)).2
      ⟨1, 1, "b@X.com", "tok", InvStatus.pending, 100⟩ (by decide)
  have h5 := h.2.2.2.2 (by decide) rfl (by decide) (by intro m hm; simp at hm)
  exact h5

/-- C3 counterexample: the accept handler issues its status check,
membership lookup and status update as separate statements with no
transaction, so with user 7 already a member of team 1 the alternating
interleaving of two acceptance attempts with the same token lets both
observe status pending and both report success — refuting "at most one of
two concurrent acceptance attempts with the same token succeeds". -/
theorem C3_double_success_counterexample :
    (runTwo 7 "tok" 7 "tok" 50
        [true, false, true, false, true, false, true, false]
        (AccPhase.start, AccPhase.start, exInvMemberDB)).1 =
      AccPhase.done (HttpRes.ok ("You are already a member of this team")) ∧
    (runTwo 7 "tok" 7 "tok" 50
        [true, false, true, false, true, false, true, false]
        (AccPhase.start, AccPhase.start, exInvMemberDB)).2.1 =
      AccPhase.done (HttpRes.ok ("You are already a member of this team")) := by
  constructor <;> decide

/-- C3 (amended): acceptance is not applied as a single atomic unit — the
status check, membership insert and status update are separate statements,
and an interleaving of two concurrent attempts with one token can let both
succeed (see the counterexample).  What does hold: when the accepting user
is not yet a member, the unique (user, team) key makes the second insert of
a racing pair fail, so in the both-read-before-either-write interleaving
exactly one attempt succeeds and exactly one membership row results; and
under fully sequential execution the second attempt fails with the
already-been-accepted error, again leaving a single membership row. -/
theorem C3_redemption_via_unique_key :
    ((runTwo 7 "tok" 7 "tok" 50
        [true, true, true, false, false, false, true, true, false]
        (AccPhase.start, AccPhase.start, exInvFreshDB)).1 =
      AccPhase.done (HttpRes.ok ("You have successfully joined the team")) ∧
    (runTwo 7 "tok" 7 "tok" 50
        [true, true, true, false, false, false, true, true, false]
        (AccPhase.start, AccPhase.start, exInvFreshDB)).2.1 =
      AccPhase.done (HttpRes.err 500 ("Failed to accept invite")) ∧
    (runTwo 7 "tok" 7 "tok" 50
        [true, true, true, false, false, false, true, true, false]
        (AccPhase.start, AccPhase.start, exInvFreshDB)).2.2.members =
      [⟨7, 1, Role.member⟩]) ∧
    ((runTwo 7 "tok" 7 "tok" 50 [true, true, true, true, true, false]
        (AccPhase.start, AccPhase.start, exInvFreshDB)).1 =
      AccPhase.done (HttpRes.ok ("You have successfully joined the team")) ∧
    (runTwo 7 "tok" 7 "tok" 50 [true, true, true, true, true, false]
        (AccPhase.start, AccPhase.start, exInvFreshDB)).2.1 =
      AccPhase.done (HttpRes.err 400 ("This invite has already been accepted")) ∧
    (runTwo 7 "tok" 7 "tok" 50 [true, true, true, true, true, false]
        (AccPhase.start, AccPhase.start, exInvFreshDB)).2.2.members =
      [⟨7, 1, Role.member⟩]) := by
  refine ⟨⟨?_, ?_, ?_⟩, ?_, ?_, ?_⟩ <;> decide

theorem find?_map_pred_preserving {α : Type} (l : List α) (p : α → Bool)
    (f : α → α) (hf : ∀ a, p (f a) = p a) :
    (l.map f).find? p = (l.find? p).map f := by
  induction l with
  | nil => rfl
  | cons a l ih =>
    by_cases h : p a = true
    · rw [List.map_cons, List.find?_cons_of_pos _ (by rw [hf]; exact h),
        List.find?_cons_of_pos _ h]
      rfl
    · rw [List.map_cons, List.find?_cons_of_neg _ (by rw [hf]; simp [h]),
        List.find?_cons_of_neg _ (by simp [h]), ih]

theorem addScoreQ_id (vid : Nat) (d : Int) (q : QuestionVRow) :
    (addScoreQ vid d q).id = q.id := by
  unfold addScoreQ
  split <;> rfl

theorem addScoreQ_activity (vid : Nat) (d : Int) (q : QuestionVRow) :
    (addScoreQ vid d q).lastActivityAt = q.lastActivityAt := by
  unfold addScoreQ
  split <;> rfl

theorem addScoreA_id (vid : Nat) (d : Int) (a : AnswerVRow) :
    (addScoreA vid d a).id = a.id := by
  unfold addScoreA
  split <;> rfl

theorem addScoreA_questionId (vid : Nat) (d : Int) (a : AnswerVRow) :
    (addScoreA vid d a).questionId = a.questionId := by
  unfold addScoreA
  split <;> rfl

theorem touchQ_id (qid now : Nat) (q : QuestionVRow) :
    (touchQ qid now q).id = q.id := by
  unfold touchQ
  split <;> rfl

theorem touchQ_score (qid now : Nat) (q : QuestionVRow) :
    (touchQ qid now q).score = q.score := by
  unfold touchQ
  split <;> rfl

theorem setDir_key (vt : VotableType) (vid uid : Nat) (dir : VoteDir)
    (v : VoteRow) :
    ((setDir vt vid uid dir v).votableType == vt
        && (setDir vt vid uid dir v).votableId == vid
        && (setDir vt vid uid dir v).userId == uid)
      = (v.votableType == vt && v.votableId == vid && v.userId == uid) := by
  unfold setDir
  split <;> rfl

theorem bumpScore_targetScore (vt : VotableType) (vid : Nat) (d : Int)
    (s : VoteDB) :
    targetScore vt vid (bumpScore vt vid d s) =
      (targetScore vt vid s).map (fun x => x + d) := by
  cases vt with
  | question =>
    simp only [bumpScore, targetScore]
    rw [find?_map_pred_preserving _ _ _ (fun a => by rw [addScoreQ_id])]
    cases hf : s.questions.find? (fun q => q.id == vid) with
    | none => rfl
    | some q =>
      have hq := List.find?_some hf
      simp only [Option.map_some']
      unfold addScoreQ
      rw [if_pos hq]
  | answer =>
    simp only [bumpScore, targetScore]
    rw [find?_map_pred_preserving _ _ _ (fun a => by rw [addScoreA_id])]
    cases hf : s.answers.find? (fun a => a.id == vid) with
    | none => rfl
    | some a =>
      have ha := List.find?_some hf
      simp only [Option.map_some']
      unfold addScoreA
      rw [if_pos ha]

theorem touchActivity_targetScore (vt : VotableType) (vid qid now : Nat)
    (s : VoteDB) :
    targetScore vt vid (touchActivity qid now s) = targetScore vt vid s := by
  cases vt with
  | question =>
    simp only [touchActivity, targetScore]
    rw [find?_map_pred_preserving _ _ _ (fun a => by rw [touchQ_id])]
    cases hf : s.questions.find? (fun q => q.id == vid) with
    | none => rfl
    | some q =>
      simp only [Option.map_some']
      rw [touchQ_score]
  | answer => rfl

theorem touchActivity_questionActivity (qid now : Nat) (s : VoteDB) :
    questionActivity qid (touchActivity qid now s) =
      (questionActivity qid s).map (fun _ => now) := by
  simp only [touchActivity, questionActivity]
  rw [find?_map_pred_preserving _ _ _ (fun a => by rw [touchQ_id])]
  cases hf : s.questions.find? (fun q => q.id == qid) with
  | none => rfl
  | some q =>
    have hq := List.find?_some hf
    simp only [Option.map_some']
    unfold touchQ
    rw [if_pos hq]

theorem bumpScore_questionActivity (vt : VotableType) (vid qid : Nat)
    (d : Int) (s : VoteDB) :
    questionActivity qid (bumpScore vt vid d s) = questionActivity qid s := by
  cases vt with
  | question =>
    simp only [bumpScore, questionActivity]
    rw [find?_map_pred_preserving _ _ _ (fun a => by rw [addScoreQ_id])]
    cases hf : s.questions.find? (fun q => q.id == qid) with
    | none => rfl
    | some q =>
      simp only [Option.map_some']
      rw [addScoreQ_activity]
  | answer => rfl

theorem postVote_new (s : VoteDB) (uid : Nat) (vt : VotableType) (vid : Nat)
    (dir : VoteDir) (now : Nat) (hnone : voteOf uid vt vid s = none) :
    (postVote uid vt vid dir now s).1 = HttpRes.ok ("Vote added") ∧
    (postVote uid vt vid dir now s).2.votes =
      s.votes ++ [⟨vt, vid, uid, dir⟩] ∧
    targetScore vt vid (postVote uid vt vid dir now s).2 =
      (targetScore vt vid s).map
        (fun x => x + (if dir == VoteDir.up then 1 else -1)) := by
  unfold voteOf at hnone
  refine ⟨?_, ?_, ?_⟩
  · simp [postVote, hnone]
  · simp only [postVote, hnone]
    cases vt with
    | question => rfl
    | answer =>
      cases hfa : (bumpScore VotableType.answer vid
          (if dir == VoteDir.up then 1 else -1)
          { s with votes := s.votes ++ [⟨VotableType.answer, vid, uid, dir⟩]
          }).answers.find? (fun a => a.id == vid) with
      | none =>
        simp only [hfa]
        rfl
      | some arow =>
        simp only [hfa]
        rfl
  · simp only [postVote, hnone]
    cases vt with
    | question =>
      rw [touchActivity_targetScore, bumpScore_targetScore]
      rfl
    | answer =>
      cases hfa : (bumpScore VotableType.answer vid
          (if dir == VoteDir.up then 1 else -1)
          { s with votes := s.votes ++ [⟨VotableType.answer, vid, uid, dir⟩]
          }).answers.find? (fun a => a.id == vid) with
      | none =>
        simp only [hfa]
        rw [bumpScore_targetScore]
        rfl
      | some arow =>
        simp only [hfa]
        rw [touchActivity_targetScore, bumpScore_targetScore]
        rfl

theorem postVote_toggle (s : VoteDB) (uid : Nat) (vt : VotableType)
    (vid : Nat) (dir : VoteDir) (now : Nat) (ex : VoteRow)
    (hsome : voteOf uid vt vid s = some ex) (hdir : ex.voteType = dir) :
    (postVote uid vt vid dir now s).1 = HttpRes.ok ("Vote removed") ∧
    (postVote uid vt vid dir now s).2.votes =
      s.votes.filter (fun v => !(v.votableType == vt && v.votableId == vid
        && v.userId == uid)) ∧
    voteOf uid vt vid (postVote uid vt vid dir now s).2 = none ∧
    targetScore vt vid (postVote uid vt vid dir now s).2 =
      (targetScore vt vid s).map
        (fun x => x + (if dir == VoteDir.up then -1 else 1)) ∧
    ∀ qid, questionActivity qid (postVote uid vt vid dir now s).2 =
      questionActivity qid s := by
  unfold voteOf at hsome
  have hbeq : (ex.voteType == dir) = true := by simp [hdir]
  refine ⟨?_, ?_, ?_, ?_, ?_⟩
  · simp [postVote, hsome, hbeq]
  · simp only [postVote, hsome, hbeq, if_pos]
    cases vt <;> rfl
  · simp only [voteOf, postVote, hsome, hbeq, if_pos]
    have hv : ∀ tgt : VoteDB, tgt.votes = s.votes.filter
        (fun v => !(v.votableType == vt && v.votableId == vid
          && v.userId == uid)) →
        tgt.votes.find? (fun v => v.votableType == vt && v.votableId == vid
          && v.userId == uid) = none := by
      intro tgt htgt
      rw [htgt, List.find?_eq_none]
      intro v hv
      have := (List.mem_filter.mp hv).2
      simp only [Bool.not_eq_true'] at this
      simp [this]
    cases vt with
    | question => exact hv _ rfl
    | answer => exact hv _ rfl
  · simp only [postVote, hsome, hbeq, if_pos]
    rw [bumpScore_targetScore]
    cases vt <;> rfl
  · intro qid
    simp only [postVote, hsome, hbeq, if_pos]
    rw [bumpScore_questionActivity]
    cases vt <;> rfl

theorem postVote_switch (s : VoteDB) (uid : Nat) (vt : VotableType)
    (vid : Nat) (dir : VoteDir) (now : Nat) (ex : VoteRow)
    (hsome : voteOf uid vt vid s = some ex) (hdir : ex.voteType ≠ dir) :
    (postVote uid vt vid dir now s).1 = HttpRes.ok ("Vote updated") ∧
    voteOf uid vt vid (postVote uid vt vid dir now s).2 =
      some { ex with voteType := dir } ∧
    targetScore vt vid (postVote uid vt vid dir now s).2 =
      (targetScore vt vid s).map
        (fun x => x + (if dir == VoteDir.up then 2 else -2)) ∧
    ∀ qid, questionActivity qid (postVote uid vt vid dir now s).2 =
      questionActivity qid s := by
  unfold voteOf at hsome
  have hbeq : (ex.voteType == dir) = false := by simp [hdir]
  refine ⟨?_, ?_, ?_, ?_⟩
  · simp [postVote, hsome, hbeq]
  · simp only [voteOf, postVote, hsome, hbeq, Bool.false_eq_true, if_false]
    have hkey := List.find?_some hsome
    have hmap : ∀ tgt : VoteDB, tgt.votes = s.votes.map (setDir vt vid uid dir) →
        tgt.votes.find? (fun v => v.votableType == vt && v.votableId == vid
          && v.userId == uid) = some { ex with voteType := dir } := by
      intro tgt htgt
      rw [htgt, find?_map_pred_preserving _ _ _ (fun a => setDir_key vt vid uid dir a),
        hsome, Option.map_some']
      unfold setDir
      rw [if_pos hkey]
    cases vt with
    | question => exact hmap _ rfl
    | answer => exact hmap _ rfl
  · simp only [postVote, hsome, hbeq, Bool.false_eq_true, if_false]
    rw [bumpScore_targetScore]
    cases vt <;> rfl
  · intro qid
    simp only [postVote, hsome, hbeq, Bool.false_eq_true, if_false]
    rw [bumpScore_questionActivity]
    cases vt <;> rfl

theorem postVote_new_activity_question (s : VoteDB) (uid vid : Nat)
    (dir : VoteDir) (now : Nat)
    (hnone : voteOf uid VotableType.question vid s = none) :
    questionActivity vid (postVote uid VotableType.question vid dir now s).2 =
      (questionActivity vid s).map (fun _ => now) := by
  unfold voteOf at hnone
  simp only [postVote, hnone]
  rw [touchActivity_questionActivity, bumpScore_questionActivity]
  rfl

theorem postVote_new_activity_answer (s : VoteDB) (uid vid : Nat)
    (dir : VoteDir) (now : Nat) (arow : AnswerVRow)
    (hnone : voteOf uid VotableType.answer vid s = none)
    (hfa : s.answers.find? (fun a => a.id == vid) = some arow) :
    questionActivity arow.questionId
        (postVote uid VotableType.answer vid dir now s).2 =
      (questionActivity arow.questionId s).map (fun _ => now) := by
  unfold voteOf at hnone
  simp only [postVote, hnone]
  have hfa2 : ∀ (d : Int) (vlist : List VoteRow),
      (bumpScore VotableType.answer vid d
          { s with votes := vlist }).answers.find? (fun a => a.id == vid)
        = some (addScoreA vid d arow) := by
    intro d vlist
    show (s.answers.map (addScoreA vid d)).find? (fun a => a.id == vid) = _
    rw [find?_map_pred_preserving _ _ _ (fun a => by rw [addScoreA_id]), hfa,
      Option.map_some']
  simp only [hfa2, addScoreA_questionId]
  rw [touchActivity_questionActivity, bumpScore_questionActivity]
  rfl

/-- C5: the vote handler implements exactly the three-state machine per
(voter, target): with no stored vote, posting inserts the vote and moves the
target's score by plus-or-minus one; posting the stored direction again
deletes the vote (back to no-vote) and reverses its point; posting the
opposite direction updates the stored direction in place and applies a
two-point swing; and two identical calls from no-vote restore both the vote
table and the target's score. -/
theorem C5_vote_state_machine :
    (∀ (s : VoteDB) (uid : Nat) (vt : VotableType) (vid : Nat)
        (dir : VoteDir) (now : Nat),
      voteOf uid vt vid s = none →
      (postVote uid vt vid dir now s).1 = HttpRes.ok ("Vote added") ∧
      (postVote uid vt vid dir now s).2.votes =
        s.votes ++ [⟨vt, vid, uid, dir⟩] ∧
      targetScore vt vid (postVote uid vt vid dir now s).2 =
        (targetScore vt vid s).map
          (fun x => x + (if dir == VoteDir.up then 1 else -1))) ∧
    (∀ (s : VoteDB) (uid : Nat) (vt : VotableType) (vid : Nat)
        (dir : VoteDir) (now : Nat) (ex : VoteRow),
      voteOf uid vt vid s = some ex → ex.voteType = dir →
      (postVote uid vt vid dir now s).1 = HttpRes.ok ("Vote removed") ∧
      voteOf uid vt vid (postVote uid vt vid dir now s).2 = none ∧
      targetScore vt vid (postVote uid vt vid dir now s).2 =
        (targetScore vt vid s).map
          (fun x => x + (if dir == VoteDir.up then -1 else 1))) ∧
    (∀ (s : VoteDB) (uid : Nat) (vt : VotableType) (vid : Nat)
        (dir : VoteDir) (now : Nat) (ex : VoteRow),
      voteOf uid vt vid s = some ex → ex.voteType ≠ dir →
      (postVote uid vt vid dir now s).1 = HttpRes.ok ("Vote updated") ∧
      voteOf uid vt vid (postVote uid vt vid dir now s).2 =
        some { ex with voteType := dir } ∧
      targetScore vt vid (postVote uid vt vid dir now s).2 =
        (targetScore vt vid s).map
          (fun x => x + (if dir == VoteDir.up then 2 else -2))) ∧
    (∀ (s : VoteDB) (uid : Nat) (vt : VotableType) (vid : Nat)
        (dir : VoteDir) (now1 now2 : Nat),
      voteOf uid vt vid s = none →
      (postVote uid vt vid dir now2
          ((postVote uid vt vid dir now1 s).2)).2.votes = s.votes ∧
      targetScore vt vid
          ((postVote uid vt vid dir now2
            ((postVote uid vt vid dir now1 s).2)).2) =
        targetScore vt vid s) := by
  refine ⟨?_, ?_, ?_, ?_⟩
  · intro s uid vt vid dir now hnone
    exact postVote_new s uid vt vid dir now hnone
  · intro s uid vt vid dir now ex hsome hdir
    obtain ⟨h1, _, h3, h4, _⟩ := postVote_toggle s uid vt vid dir now ex hsome hdir
    exact ⟨h1, h3, h4⟩
  · intro s uid vt vid dir now ex hsome hdir
    obtain ⟨h1, h2, h3, _⟩ := postVote_switch s uid vt vid dir now ex hsome hdir
    exact ⟨h1, h2, h3⟩
  · intro s uid vt vid dir now1 now2 hnone
    obtain ⟨h1res, h1votes, h1score⟩ := postVote_new s uid vt vid dir now1 hnone
    have hnone' := hnone
    unfold voteOf at hnone'
    have hrow : voteOf uid vt vid (postVote uid vt vid dir now1 s).2 =
        some ⟨vt, vid, uid, dir⟩ := by
      unfold voteOf
      rw [h1votes, List.find?_append, hnone', Option.none_or]
      simp
    obtain ⟨h2res, h2votes, h2none, h2score, _⟩ :=
      postVote_toggle ((postVote uid vt vid dir now1 s).2) uid vt vid dir now2
        ⟨vt, vid, uid, dir⟩ hrow rfl
    constructor
    · rw [h2votes, h1votes, List.filter_append]
      have hall : s.votes.filter (fun v => !(v.votableType == vt
          && v.votableId == vid && v.userId == uid)) = s.votes := by
        rw [List.filter_eq_self]
        intro v hv
        have hne := List.find?_eq_none.mp hnone' v hv
        cases hb : (v.votableType == vt && v.votableId == vid
            && v.userId == uid) with
        | true => exact absurd hb hne
        | false => simp [hb]
      have hrow0 : ([⟨vt, vid, uid, dir⟩] : List VoteRow).filter
          (fun v => !(v.votableType == vt && v.votableId == vid
            && v.userId == uid)) = [] := by
        simp
      rw [hall, hrow0, List.append_nil]
    · rw [h2score, h1score]
      cases hts : targetScore vt vid s with
      | none => rfl
      | some x =>
        simp only [Option.map_some', Option.some.injEq]
        cases dir <;> simp

/-- C5 witness: user 1 upvotes question 1 (score 3, no stored vote): the
vote row is appended and the score moves to 4. -/
theorem C5_vote_state_machine_witness :
    (postVote 1 VotableType.question 1 VoteDir.up 10 exVoteDB2).1 =
      HttpRes.ok ("Vote added") ∧
    (postVote 1 VotableType.question 1 VoteDir.up 10 exVoteDB2).2.votes =
      exVoteDB2.votes ++ [⟨VotableType.question, 1, 1, VoteDir.up⟩] ∧
    targetScore VotableType.question 1
        (postVote 1 VotableType.question 1 VoteDir.up 10 exVoteDB2).2 =
      (targetScore VotableType.question 1 exVoteDB2).map
        (fun x => x + (if VoteDir.up == VoteDir.up then 1 else -1)) :=
  C5_vote_state_machine.1 exVoteDB2 1 VotableType.question 1 VoteDir.up 10
    (by decide)

/-- C6 counterexample: user 1 already upvoted question 1 (last activity 5);
posting the same vote again (now = 10) is a toggle-off mutation, yet the
question's last-activity timestamp stays 5, so not every vote mutation
updates it. -/
theorem C6_toggle_does_not_touch_activity :
    questionActivity 1
        ((postVote 1 VotableType.question 1 VoteDir.up 10 exVoteDB).2) =
      some 5 ∧ (5 : Nat) ≠ 10 := by
  constructor <;> decide

/-- C6 (amended): only the new-vote branch bumps the owning question's
last-activity timestamp — on a fresh question vote the question's
`last_activity_at` is set to the current time, on a fresh answer vote the
owning question is resolved through the answer's `question_id` and bumped,
while toggle-off and direction-switch mutations leave every question's
last-activity timestamp unchanged. -/
theorem C6_activity_only_on_new_vote :
    (∀ (s : VoteDB) (uid vid : Nat) (dir : VoteDir) (now : Nat),
      voteOf uid VotableType.question vid s = none →
      questionActivity vid
          (postVote uid VotableType.question vid dir now s).2 =
        (questionActivity vid s).map (fun _ => now)) ∧
    (∀ (s : VoteDB) (uid vid : Nat) (dir : VoteDir) (now : Nat)
        (arow : AnswerVRow),
      voteOf uid VotableType.answer vid s = none →
      s.answers.find? (fun a => a.id == vid) = some arow →
      questionActivity arow.questionId
          (postVote uid VotableType.answer vid dir now s).2 =
        (questionActivity arow.questionId s).map (fun _ => now)) ∧
    (∀ (s : VoteDB) (uid : Nat) (vt : VotableType) (vid : Nat)
        (dir : VoteDir) (now : Nat) (ex : VoteRow) (qid : Nat),
      voteOf uid vt vid s = some ex → ex.voteType = dir →
      questionActivity qid (postVote uid vt vid dir now s).2 =
        questionActivity qid s) ∧
    (∀ (s : VoteDB) (uid : Nat) (vt : VotableType) (vid : Nat)
        (dir : VoteDir) (now : Nat) (ex : VoteRow) (qid : Nat),
      voteOf uid vt vid s = some ex → ex.voteType ≠ dir →
      questionActivity qid (postVote uid vt vid dir now s).2 =
        questionActivity qid s) :=
  ⟨fun s uid vid dir now hnone =>
      postVote_new_activity_question s uid vid dir now hnone,
    fun s uid vid dir now arow hnone hfa =>
      postVote_new_activity_answer s uid vid dir now arow hnone hfa,
    fun s uid vt vid dir now ex qid hsome hdir =>
      (postVote_toggle s uid vt vid dir now ex hsome hdir).2.2.2.2 qid,
    fun s uid vt vid dir now ex qid hsome hdir =>
      (postVote_switch s uid vt vid dir now ex hsome hdir).2.2.2 qid⟩

/-- C6 witness: a fresh upvote on answer 4 of question 1 bumps question 1's
last-activity timestamp to the request time. -/
theorem C6_activity_only_on_new_vote_witness :
    questionActivity 1
        ((postVote 1 VotableType.answer 4 VoteDir.up 10 exVoteDB2).2) =
      (questionActivity 1 exVoteDB2).map (fun _ => 10) :=
  C6_activity_only_on_new_vote.2.1 exVoteDB2 1 4 VoteDir.up 10 ⟨4, 1, 2⟩
    (by decide) (by decide)

theorem clearAccepted_id (qid : Nat) (a : AnswerFull) :
    (clearAccepted qid a).id = a.id := by
  unfold clearAccepted
  split <;> rfl

theorem setAccepted_id (aid : Nat) (a : AnswerFull) :
    (setAccepted aid a).id = a.id := by
  unfold setAccepted
  split <;> rfl

theorem set_clear_questionId (aid qid : Nat) (x : AnswerFull) :
    (setAccepted aid (clearAccepted qid x)).questionId = x.questionId := by
  unfold setAccepted clearAccepted
  by_cases h1 : (x.questionId == qid) = true <;>
    by_cases h2 : (x.id == aid) = true <;> simp [h1, h2]

theorem set_clear_isAccepted (aid qid : Nat) (x : AnswerFull) :
    (setAccepted aid (clearAccepted qid x)).isAccepted =
      (if x.id == aid then true
        else (if x.questionId == qid then false else x.isAccepted)) := by
  unfold setAccepted clearAccepted
  by_cases h1 : (x.questionId == qid) = true <;>
    by_cases h2 : (x.id == aid) = true <;> simp [h1, h2]

theorem acceptAnswer_success (s : AcceptDB) (caller aid : Nat)
    (a : AnswerFull) (q : QuestionMeta)
    (hfa : s.answers.find? (fun x => x.id == aid) = some a)
    (hfq : s.questions.find? (fun x => x.id == a.questionId) = some q)
    (hmem : ∃ m ∈ s.members, m.userId = caller ∧ m.teamId = q.teamId) :
    (acceptAnswer caller aid s).1 =
      HttpRes.ok ("Answer marked as approved successfully") ∧
    (acceptAnswer caller aid s).2.answers.find? (fun x => x.id == aid) =
      some { a with isAccepted := true } := by
  obtain ⟨m0, hm0, hmu, hmt⟩ := hmem
  have hfm : (s.members.find? (fun m => m.userId == caller
      && m.teamId == q.teamId)).isNone = false := by
    cases hf : s.members.find? (fun m => m.userId == caller
        && m.teamId == q.teamId) with
    | none =>
      exfalso
      have := List.find?_eq_none.mp hf m0 hm0
      simp [hmu, hmt] at this
    | some mf => rfl
  have haid0 := List.find?_some hfa
  have haid : (a.id == aid) = true := haid0
  constructor
  · simp [acceptAnswer, hfa, hfq, hfm]
  · simp only [acceptAnswer, hfa, hfq, hfm, Bool.false_eq_true, if_false]
    rw [find?_map_pred_preserving _ _ _ (fun x => by rw [setAccepted_id]),
      find?_map_pred_preserving _ _ _ (fun x => by rw [clearAccepted_id]),
      hfa, Option.map_some', Option.map_some']
    simp [clearAccepted, setAccepted, haid]

theorem acceptAnswer_preserves (s : AcceptDB) (caller aid : Nat)
    (hnodup : (s.answers.map (fun x => x.id)).Nodup)
    (hinv : atMostOneAccepted s.answers) :
    atMostOneAccepted ((acceptAnswer caller aid s).2).answers := by
  unfold acceptAnswer
  split
  · exact hinv
  · rename_i a hfa
    split
    · exact hinv
    · rename_i q hfq
      split
      · exact hinv
      · intro qid
        simp only
        rw [List.map_map, List.countP_map]
        have hamem := List.mem_of_find?_eq_some hfa
        have haid0 := List.find?_some hfa
        have haid : a.id = aid := by
          have h : (a.id == aid) = true := haid0
          rw [beq_iff_eq] at h
          exact h
        by_cases hq : qid = a.questionId
        · rw [hq]
          have hcong : ∀ x ∈ s.answers,
              ((setAccepted aid (clearAccepted a.questionId x)).questionId
                  == a.questionId
                && (setAccepted aid
                  (clearAccepted a.questionId x)).isAccepted) = true ↔
                ((x.id == aid) = true) := by
            intro x hx
            rw [set_clear_questionId, set_clear_isAccepted]
            by_cases h2 : (x.id == aid) = true
            · have hxa : x = a := List.inj_on_of_nodup_map hnodup hx hamem
                (by rw [beq_iff_eq] at h2; rw [h2, haid])
              rw [if_pos h2, h2, hxa]
              simp
            · rw [if_neg (by simp [h2])]
              by_cases h3 : (x.questionId == a.questionId) = true
              · rw [if_pos h3]
                simp [h2]
              · rw [if_neg (by simp [h3])]
                simp [h2, h3]
          have hcc : s.answers.countP
              ((fun y => y.questionId == a.questionId && y.isAccepted) ∘
                setAccepted aid ∘ clearAccepted a.questionId) =
              s.answers.countP (fun y => y.id == aid) :=
            List.countP_congr hcong
          have h1 : s.answers.countP (fun y => y.id == aid) =
              (s.answers.map (fun x => x.id)).countP (fun y => y == aid) :=
            (List.countP_map (fun y => y == aid)
              (fun x : AnswerFull => x.id) s.answers).symm
          have h2 : (s.answers.map (fun x => x.id)).count aid =
              (s.answers.map (fun x => x.id)).countP (fun y => y == aid) :=
            List.count_eq_countP _ _
          have h4 := List.nodup_iff_count_le_one.mp hnodup aid
          exact le_trans (le_of_eq hcc) (by omega)
        · refine le_trans (List.countP_mono_left ?_) (hinv qid)
          intro x hx hpx
          have hq2 : ((setAccepted aid (clearAccepted a.questionId x)).questionId
              == qid && (setAccepted aid
                (clearAccepted a.questionId x)).isAccepted) = true := hpx
          rw [set_clear_questionId, set_clear_isAccepted,
            Bool.and_eq_true] at hq2
          obtain ⟨hq1b, hacc⟩ := hq2
          have hq1 : x.questionId = qid := by
            rw [← beq_iff_eq]
            exact hq1b
          by_cases h2 : (x.id == aid) = true
          · exfalso
            have hxa : x = a := List.inj_on_of_nodup_map hnodup hx hamem
              (by rw [beq_iff_eq] at h2; rw [h2, haid])
            rw [hxa] at hq1
            exact hq hq1.symm
          · rw [if_neg (by simp [h2])] at hacc
            have h3 : ¬ (x.questionId == a.questionId) = true := by
              simp only [beq_iff_eq]
              rw [hq1]
              exact fun h => hq h
            rw [if_neg h3] at hacc
            show (x.questionId == qid && x.isAccepted) = true
            rw [Bool.and_eq_true]
            exact ⟨hq1b, hacc⟩

/-- C7: the accept-answer operation requires team membership only — any
member of the question's team succeeds, with no check that the caller is
the question's author — and it first clears `is_accepted` on every answer
of the question before setting it on the chosen answer, so afterwards the
chosen answer is the accepted one and the at-most-one-accepted invariant
holds for every question (answer ids unique per the primary key); every
failing call leaves the database unchanged. -/
theorem C7_at_most_one_accepted :
    (∀ (s : AcceptDB) (caller aid : Nat) (a : AnswerFull) (q : QuestionMeta),
      s.answers.find? (fun x => x.id == aid) = some a →
      s.questions.find? (fun x => x.id == a.questionId) = some q →
      (∃ m ∈ s.members, m.userId = caller ∧ m.teamId = q.teamId) →
      (acceptAnswer caller aid s).1 =
        HttpRes.ok ("Answer marked as approved successfully") ∧
      (acceptAnswer caller aid s).2.answers.find? (fun x => x.id == aid) =
        some { a with isAccepted := true }) ∧
    (∀ (s : AcceptDB) (caller aid : Nat),
      (s.answers.map (fun x => x.id)).Nodup →
      atMostOneAccepted s.answers →
      atMostOneAccepted ((acceptAnswer caller aid s).2).answers) ∧
    (∀ (s : AcceptDB) (caller aid : Nat),
      (∃ msg, (acceptAnswer caller aid s).1 = HttpRes.ok msg) ∨
        (acceptAnswer caller aid s).2 = s) := by
  refine ⟨?_, ?_, ?_⟩
  · intro s caller aid a q hfa hfq hmem
    exact acceptAnswer_success s caller aid a q hfa hfq hmem
  · intro s caller aid hnodup hinv
    exact acceptAnswer_preserves s caller aid hnodup hinv
  · intro s caller aid
    unfold acceptAnswer
    split
    · exact Or.inr rfl
    · split
      · exact Or.inr rfl
      · split
        · exact Or.inr rfl
        · exact Or.inl ⟨_, rfl⟩

/-- C7 witness: user 2, a team member who is not the author of question 1,
accepts answer 4; answer 4 becomes the accepted answer and the
at-most-one-accepted invariant holds on the result. -/
theorem C7_at_most_one_accepted_witness :
    (acceptAnswer 2 4 exAcceptDB).1 =
      HttpRes.ok ("Answer marked as approved successfully") ∧
    (acceptAnswer 2 4 exAcceptDB).2.answers.find? (fun x => x.id == 4) =
      some ⟨4, 1, 9, true⟩ :=
  C7_at_most_one_accepted.1 exAcceptDB 2 4 ⟨4, 1, 9, false⟩ ⟨1, 1, 9⟩
    (by decide) (by decide) ⟨⟨2, 1, Role.member⟩, by decide, rfl, rfl⟩

/-- C8 counterexample: user 2 is an admin of team 1, the team of comment 1,
yet deleting the comment authored by user 1 is rejected with 403 and the
database is unchanged — refuting that deletion is additionally permitted
for an admin of the comment's team. -/
theorem C8_admin_delete_rejected_counterexample :
    commentTeam 1 exCommentDB = some 1 ∧
    requireTeamAdmin 2 1 exCommentDB.members = true ∧
    deleteComment 2 1 exCommentDB =
      (HttpRes.err 403 ("Not authorized to delete this comment"), exCommentDB) := by
  refine ⟨?_, ?_, ?_⟩ <;> decide

/-- C8 (amended): comment deletion is author-only — a missing comment gives
404; any caller other than the author, team admins included (the handler
never consults the membership table), gets 403 with the database unchanged;
the author's deletion removes exactly the comment's row.  The repository
exposes no comment-edit operation at all. -/
theorem C8_comment_delete_author_only :
    (∀ (s : CommentDB) (caller cid : Nat),
      s.comments.find? (fun c => c.id == cid) = none →
      deleteComment caller cid s = (HttpRes.err 404 ("Comment not found"), s)) ∧
    (∀ (s : CommentDB) (caller cid : Nat) (c : CommentRow),
      s.comments.find? (fun c => c.id == cid) = some c →
      c.userId ≠ caller →
      deleteComment caller cid s =
        (HttpRes.err 403 ("Not authorized to delete this comment"), s)) ∧
    (∀ (s : CommentDB) (caller cid : Nat) (c : CommentRow),
      s.comments.find? (fun c => c.id == cid) = some c →
      c.userId = caller →
      deleteComment caller cid s =
        (HttpRes.ok ("Comment deleted successfully"),
          { s with comments := s.comments.filter (fun x => !(x.id == cid)) })) := by
  refine ⟨?_, ?_, ?_⟩
  · intro s caller cid hnone
    simp [deleteComment, hnone]
  · intro s caller cid c hsome hne
    simp [deleteComment, hsome, hne]
  · intro s caller cid c hsome heq
    simp [deleteComment, hsome, heq]

/-- C8 witness: the author (user 1) deletes comment 1 successfully and only
that row disappears. -/
theorem C8_comment_delete_author_only_witness :
    deleteComment 1 1 exCommentDB =
      (HttpRes.ok ("Comment deleted successfully"),
        { exCommentDB with comments := (exCommentDB.comments.filter
            (fun x => !(x.id == 1))) }) :=
  C8_comment_delete_author_only.2.2 exCommentDB 1 1
    ⟨1, ParentKind.question, 1, 1⟩ (by decide) rfl

theorem countP_split {α : Type} (l : List α) (p q : α → Bool) :
    l.countP p =
      l.countP (fun a => p a && q a) + l.countP (fun a => p a && !q a) := by
  induction l with
  | nil => rfl
  | cons a l ih =>
    rw [List.countP_cons, List.countP_cons, List.countP_cons]
    cases hp : p a <;> cases hq : q a <;> simp [hp, hq] <;> omega

theorem dec_pointwise (tid : Nat) (rest : List Nat) (t : TagRow) :
    (fun x => { x with questionCount := (x.questionCount - rest.count x.id) })
        (decTagCount tid t) =
      { t with questionCount := (t.questionCount - (tid :: rest).count t.id) } := by
  unfold decTagCount
  by_cases h : (t.id == tid) = true
  · rw [if_pos h]
    show ({ t with questionCount :=
        (t.questionCount - 1 - rest.count t.id) } : TagRow) = _
    have hb : (tid == t.id) = true := by
      rw [beq_iff_eq] at h ⊢
      exact h.symm
    have hqc : t.questionCount - 1 - rest.count t.id =
        t.questionCount - (tid :: rest).count t.id := by
      rw [List.count_cons, hb]
      simp
      omega
    rw [hqc]
  · rw [if_neg h]
    show ({ t with questionCount :=
        (t.questionCount - rest.count t.id) } : TagRow) = _
    have hb : (tid == t.id) = false := by
      rw [beq_eq_false_iff_ne]
      intro he
      rw [beq_iff_eq] at h
      exact h he.symm
    have hqc : t.questionCount - rest.count t.id =
        t.questionCount - (tid :: rest).count t.id := by
      rw [List.count_cons, hb]
      simp
    rw [hqc]

theorem decrementAll_eq (tids : List Nat) (tags : List TagRow) :
    decrementAll tids tags =
      tags.map (fun t =>
        { t with questionCount := (t.questionCount - tids.count t.id) }) := by
  induction tids generalizing tags with
  | nil =>
    show tags = _
    exact (List.map_id' tags).symm
  | cons tid rest ih =>
    show decrementAll rest (tags.map (decTagCount tid)) = _
    rw [ih, List.map_map]
    apply List.map_congr_left
    intro t _
    exact dec_pointwise tid rest t

theorem phase1_invariants (s : TagDB) (qid : Nat) (hc : tagCountsCorrect s)
    (hf : tagsFresh s) (hv : linksValid s) :
    tagCountsCorrect
      { s with
          tags := decrementAll ((s.questionTags.filter
            (fun l => l.questionId == qid)).map (fun l => l.tagId)) s.tags,
          questionTags := (s.questionTags.filter
            (fun l => !(l.questionId == qid))) } ∧
    tagsFresh
      { s with
          tags := decrementAll ((s.questionTags.filter
            (fun l => l.questionId == qid)).map (fun l => l.tagId)) s.tags,
          questionTags := (s.questionTags.filter
            (fun l => !(l.questionId == qid))) } ∧
    linksValid
      { s with
          tags := decrementAll ((s.questionTags.filter
            (fun l => l.questionId == qid)).map (fun l => l.tagId)) s.tags,
          questionTags := (s.questionTags.filter
            (fun l => !(l.questionId == qid))) } := by
  refine ⟨?_, ?_, ?_⟩
  · intro t' ht'
    have ht2 : t' ∈ decrementAll ((s.questionTags.filter
        (fun l => l.questionId == qid)).map (fun l => l.tagId)) s.tags := ht'
    rw [decrementAll_eq] at ht2
    obtain ⟨t, ht, heq⟩ := List.mem_map.mp ht2
    have hid : t'.id = t.id := by rw [← heq]
    have hqc : t'.questionCount = t.questionCount -
        ((s.questionTags.filter (fun l => l.questionId == qid)).map
          (fun l => l.tagId)).count t.id := by rw [← heq]
    have hsplit := countP_split s.questionTags
      (fun l => l.tagId == t.id) (fun l => l.questionId == qid)
    have hcur : ((s.questionTags.filter (fun l => l.questionId == qid)).map
        (fun l => l.tagId)).count t.id =
        s.questionTags.countP
          (fun l => (l.tagId == t.id) && (l.questionId == qid)) := by
      rw [List.count_eq_countP, List.countP_map, List.countP_filter]
      rfl
    have hnew : (s.questionTags.filter
        (fun l => !(l.questionId == qid))).countP
          (fun l => l.tagId == t'.id) =
        s.questionTags.countP
          (fun l => (l.tagId == t.id) && !(l.questionId == qid)) := by
      rw [hid, List.countP_filter]
    have hct := hc t ht
    show t'.questionCount = (s.questionTags.filter
      (fun l => !(l.questionId == qid))).countP (fun l => l.tagId == t'.id)
    rw [hqc, hcur, hnew]
    omega
  · intro t' ht'
    have ht2 : t' ∈ decrementAll ((s.questionTags.filter
        (fun l => l.questionId == qid)).map (fun l => l.tagId)) s.tags := ht'
    rw [decrementAll_eq] at ht2
    obtain ⟨t, ht, heq⟩ := List.mem_map.mp ht2
    have hid : t'.id = t.id := by rw [← heq]
    show t'.id < s.nextTagId
    rw [hid]
    exact hf t ht
  · intro l hl
    have hl2 : l ∈ s.questionTags := (List.mem_filter.mp hl).1
    obtain ⟨t, ht, hid⟩ := hv l hl2
    refine ⟨(fun x => { x with questionCount := (x.questionCount -
        ((s.questionTags.filter (fun y => y.questionId == qid)).map
          (fun y => y.tagId)).count x.id) }) t, ?_, hid⟩
    show _ ∈ decrementAll _ s.tags
    rw [decrementAll_eq]
    exact List.mem_map_of_mem _ ht

theorem incTagCount_id (tid : Nat) (t : TagRow) :
    (incTagCount tid t).id = t.id := by
  unfold incTagCount
  split <;> rfl

theorem attachTag_preserves (teamId qid : Nat) (nm : String) (s : TagDB)
    (hc : tagCountsCorrect s) (hf : tagsFresh s) (hv : linksValid s) :
    ∀ (m : String) (s' : TagDB),
      attachTag teamId qid nm s = (HttpRes.ok m, s') →
      tagCountsCorrect s' ∧ tagsFresh s' ∧ linksValid s' := by
  intro m s' hok
  simp only [attachTag] at hok
  split at hok
  · rename_i t hft
    split at hok
    · simp at hok
    · rename_i hdup
      have hs' : s' = { s with
          questionTags := s.questionTags ++ [(⟨qid, t.id⟩ : QLink)],
          tags := s.tags.map (incTagCount t.id) } := by
        injection hok with h1 h2
        exact h2.symm
      subst hs'
      have htmem := List.mem_of_find?_eq_some hft
      refine ⟨?_, ?_, ?_⟩
      · intro t' ht'
        have ht2 : t' ∈ s.tags.map (incTagCount t.id) := ht'
        obtain ⟨t0, ht0, heq⟩ := List.mem_map.mp ht2
        show t'.questionCount =
          (s.questionTags ++ [(⟨qid, t.id⟩ : QLink)]).countP (fun l => l.tagId == t'.id)
        rw [List.countP_append]
        have hct0 := hc t0 ht0
        by_cases hsame : (t0.id == t.id) = true
        · have hinc : incTagCount t.id t0 =
              { t0 with questionCount := t0.questionCount + 1 } := by
            unfold incTagCount
            rw [if_pos hsame]
          rw [hinc] at heq
          have hqc : t'.questionCount = t0.questionCount + 1 := by rw [← heq]
          have hid : t'.id = t0.id := by rw [← heq]
          have hone : [(⟨qid, t.id⟩ : QLink)].countP
              (fun l => l.tagId == t'.id) = 1 := by
            rw [hid]
            have : (t.id == t0.id) = true := by
              rw [beq_iff_eq] at hsame ⊢
              exact hsame.symm
            simp [List.countP_cons, this]
          rw [hone, hqc, hid, hct0]
        · have hinc : incTagCount t.id t0 = t0 := by
            unfold incTagCount
            rw [if_neg hsame]
          rw [hinc] at heq
          subst heq
          have hzero : [(⟨qid, t.id⟩ : QLink)].countP
              (fun l => l.tagId == t0.id) = 0 := by
            have : (t.id == t0.id) = false := by
              rw [beq_eq_false_iff_ne]
              intro he
              rw [beq_iff_eq] at hsame
              exact hsame he.symm
            simp [List.countP_cons, this]
          rw [hzero, hct0]
          omega
      · intro t' ht'
        have ht2 : t' ∈ s.tags.map (incTagCount t.id) := ht'
        obtain ⟨t0, ht0, heq⟩ := List.mem_map.mp ht2
        show t'.id < s.nextTagId
        rw [← heq, incTagCount_id]
        exact hf t0 ht0
      · intro l hl
        have hl2 : l ∈ s.questionTags ++ [(⟨qid, t.id⟩ : QLink)] := hl
        rcases List.mem_append.mp hl2 with hold | hnew
        · obtain ⟨tg, htg, hid⟩ := hv l hold
          exact ⟨incTagCount t.id tg, List.mem_map_of_mem _ htg,
            by rw [incTagCount_id]; exact hid⟩
        · have hl3 : l = ⟨qid, t.id⟩ := by simpa using hnew
          refine ⟨incTagCount t.id t, List.mem_map_of_mem _ htmem, ?_⟩
          rw [incTagCount_id, hl3]
  · rename_i hft
    split at hok
    · simp at hok
    · rename_i hdup
      have hs' : s' = { s with
          tags := (s.tags ++ [(⟨s.nextTagId, teamId, lowerStr nm, 0⟩ : TagRow)]).map
            (incTagCount s.nextTagId),
          questionTags := s.questionTags ++ [(⟨qid, s.nextTagId⟩ : QLink)],
          nextTagId := s.nextTagId + 1 } := by
        injection hok with h1 h2
        exact h2.symm
      subst hs'
      have hfreshne : ∀ t0 ∈ s.tags, t0.id ≠ s.nextTagId := by
        intro t0 ht0 he
        have := hf t0 ht0
        omega
      have hlinkne : ∀ l ∈ s.questionTags, l.tagId ≠ s.nextTagId := by
        intro l hl he
        obtain ⟨tg, htg, hid⟩ := hv l hl
        have := hf tg htg
        omega
      refine ⟨?_, ?_, ?_⟩
      · intro t' ht'
        have ht2 : t' ∈ (s.tags ++ [(⟨s.nextTagId, teamId, lowerStr nm, 0⟩ : TagRow)]).map
            (incTagCount s.nextTagId) := ht'
        obtain ⟨t0, ht0, heq⟩ := List.mem_map.mp ht2
        show t'.questionCount = (s.questionTags ++
          [(⟨qid, s.nextTagId⟩ : QLink)]).countP (fun l => l.tagId == t'.id)
        rw [List.countP_append]
        rcases List.mem_append.mp ht0 with holdt | hnewt
        · have hne := hfreshne t0 holdt
          have hsame : (t0.id == s.nextTagId) = false := by
            rw [beq_eq_false_iff_ne]
            exact hne
          have hinc : incTagCount s.nextTagId t0 = t0 := by
            unfold incTagCount
            rw [if_neg (by simp [hsame])]
          rw [hinc] at heq
          subst heq
          have hzero : [(⟨qid, s.nextTagId⟩ : QLink)].countP
              (fun l => l.tagId == t0.id) = 0 := by
            have : (s.nextTagId == t0.id) = false := by
              rw [beq_eq_false_iff_ne]
              intro he
              exact hne he.symm
            simp [List.countP_cons, this]
          rw [hzero, hc t0 holdt]
          omega
        · have ht0eq : t0 = ⟨s.nextTagId, teamId, lowerStr nm, 0⟩ := by
            simpa using hnewt
          subst ht0eq
          have hinc : incTagCount s.nextTagId
              (⟨s.nextTagId, teamId, lowerStr nm, 0⟩ : TagRow) =
              ⟨s.nextTagId, teamId, lowerStr nm, 1⟩ := by
            unfold incTagCount
            rw [if_pos (by simp)]
          rw [hinc] at heq
          have hid : t'.id = s.nextTagId := by rw [← heq]
          have hqc : t'.questionCount = 1 := by rw [← heq]
          have hzeroold : s.questionTags.countP
              (fun l => l.tagId == t'.id) = 0 := by
            rw [List.countP_eq_zero]
            intro l hl
            simp only [beq_iff_eq]
            rw [hid]
            exact hlinkne l hl
          have hone : [(⟨qid, s.nextTagId⟩ : QLink)].countP
              (fun l => l.tagId == t'.id) = 1 := by
            have : (s.nextTagId == t'.id) = true := by
              rw [beq_iff_eq, hid]
            simp [List.countP_cons, this]
          rw [hzeroold, hone, hqc]
      · intro t' ht'
        have ht2 : t' ∈ (s.tags ++ [(⟨s.nextTagId, teamId, lowerStr nm, 0⟩ : TagRow)]).map
            (incTagCount s.nextTagId) := ht'
        obtain ⟨t0, ht0, heq⟩ := List.mem_map.mp ht2
        show t'.id < s.nextTagId + 1
        rw [← heq, incTagCount_id]
        rcases List.mem_append.mp ht0 with holdt | hnewt
        · have := hf t0 holdt
          omega
        · have ht0eq : t0 = ⟨s.nextTagId, teamId, lowerStr nm, 0⟩ := by
            simpa using hnewt
          rw [ht0eq]
          exact Nat.lt_succ_self s.nextTagId
      · intro l hl
        have hl2 : l ∈ s.questionTags ++ [(⟨qid, s.nextTagId⟩ : QLink)] := hl
        rcases List.mem_append.mp hl2 with hold | hnew
        · obtain ⟨tg, htg, hid⟩ := hv l hold
          exact ⟨incTagCount s.nextTagId tg,
            List.mem_map_of_mem _ (List.mem_append_left _ htg),
            by rw [incTagCount_id]; exact hid⟩
        · have hl3 : l = ⟨qid, s.nextTagId⟩ := by simpa using hnew
          refine ⟨incTagCount s.nextTagId
            (⟨s.nextTagId, teamId, lowerStr nm, 0⟩ : TagRow),
            List.mem_map_of_mem _ (List.mem_append_right _ (by simp)), ?_⟩
          rw [incTagCount_id, hl3]

theorem attachTags_preserves (teamId qid : Nat) (names : List String) :
    ∀ (s : TagDB), tagCountsCorrect s → tagsFresh s → linksValid s →
    ∀ (m : String) (s' : TagDB),
      attachTags teamId qid names s = (HttpRes.ok m, s') →
      tagCountsCorrect s' ∧ tagsFresh s' ∧ linksValid s' := by
  induction names with
  | nil =>
    intro s hc hf hv m s' hok
    unfold attachTags at hok
    injection hok with h1 h2
    rw [← h2]
    exact ⟨hc, hf, hv⟩
  | cons n rest ih =>
    intro s hc hf hv m s' hok
    unfold attachTags at hok
    split at hok
    · rename_i m1 s1 heq
      obtain ⟨hc1, hf1, hv1⟩ :=
        attachTag_preserves teamId qid n s hc hf hv m1 s1 heq
      exact ih s1 hc1 hf1 hv1 m s' hok
    · rename_i e hne
      exact absurd hok (hne m s')

/-- C9: replacing a question's tag set — decrement question_count (floored
at zero) for every currently linked tag, remove the question's links, then
for each parsed new tag name (lowercased, get-or-create per team) insert a
link and increment the count — restores the invariant that every tag's
question_count equals the recount of its actual links, provided the counts
were correct beforehand (together with the schema facts that tag ids sit
below the AUTO_INCREMENT counter and that links reference existing tags),
for every replacement that completes successfully. -/
theorem C9_tag_replacement_consistent :
    ∀ (s : TagDB) (caller qid : Nat) (tags m : String) (s' : TagDB),
      tagCountsCorrect s → tagsFresh s → linksValid s →
      updateQuestionTags caller qid tags s = (HttpRes.ok m, s') →
      tagCountsCorrect s' := by
  intro s caller qid tags m s' hc hf hv hok
  simp only [updateQuestionTags] at hok
  split at hok
  · simp at hok
  · rename_i q hfq
    split at hok
    · simp at hok
    · obtain ⟨hc2, hf2, hv2⟩ := phase1_invariants s qid hc hf hv
      split at hok
      · rename_i m1 s3 heq
        obtain ⟨hc3, _, _⟩ := attachTags_preserves q.teamId qid
          (parseTags tags) _ hc2 hf2 hv2 m1 s3 heq
        injection hok with h1 h2
        rw [← h2]
        exact hc3
      · rename_i e hne
        exact absurd hok (hne m s')

/-- C9 witness: question 1 carries tag "old" (count 1); replacing its tag
set with "New, other" ends in a state whose tag counts all equal the
recount of the actual links (old 0, new 1, other 1). -/
theorem C9_tag_replacement_consistent_witness :
    tagCountsCorrect (updateQuestionTags 9 1 "New, other" exTagDB).2 :=
  C9_tag_replacement_consistent exTagDB 9 1 "New, other"
    "Question updated successfully" (updateQuestionTags 9 1 "New, other" exTagDB).2
    (by decide) (by decide) (by decide) (by decide)

/-- C10: deleting a question removes the question row and its question-tag
links (store-level cascade) but performs no decrement of any tag's
question_count, so for a tag linked to the deleted question the stored
count strictly exceeds the recount of its remaining links: the delete
succeeds for the question's owner, the tags table is left completely
unchanged, and the recount drops below the stored count. -/
theorem C10_delete_question_keeps_counts :
    ∀ (s : TagDB) (caller qid : Nat) (q : QuestionMeta) (t : TagRow),
      tagCountsCorrect s →
      s.questions.find? (fun x => x.id == qid) = some q →
      q.userId = caller →
      t ∈ s.tags →
      (⟨qid, t.id⟩ : QLink) ∈ s.questionTags →
      (deleteQuestion caller qid s).1 =
        HttpRes.ok ("Question deleted successfully") ∧
      (deleteQuestion caller qid s).2.tags = s.tags ∧
      (deleteQuestion caller qid s).2.questionTags.countP
          (fun l => l.tagId == t.id) < t.questionCount := by
  intro s caller qid q t hc hfq hown ht hlink
  have hcond : (q.userId != caller) = false := by simp [hown]
  refine ⟨?_, ?_, ?_⟩
  · simp [deleteQuestion, hfq, hcond]
  · simp [deleteQuestion, hfq, hcond]
  · have hsplit : s.questionTags.countP (fun l => l.tagId == t.id) =
        s.questionTags.countP
          (fun l => (l.tagId == t.id) && (l.questionId == qid)) +
        s.questionTags.countP
          (fun l => (l.tagId == t.id) && !(l.questionId == qid)) :=
      countP_split s.questionTags (fun l => l.tagId == t.id)
        (fun l => l.questionId == qid)
    have hfil : (s.questionTags.filter
        (fun l => !(l.questionId == qid))).countP
          (fun l => l.tagId == t.id) =
        s.questionTags.countP
          (fun l => (l.tagId == t.id) && !(l.questionId == qid)) :=
      List.countP_filter _ _ _
    have hpos : 0 < s.questionTags.countP
        (fun l => (l.tagId == t.id) && (l.questionId == qid)) :=
      List.countP_pos_iff.mpr ⟨⟨qid, t.id⟩, hlink, by simp⟩
    have hct := hc t ht
    have hred : (deleteQuestion caller qid s).2.questionTags =
        s.questionTags.filter (fun l => !(l.questionId == qid)) := by
      simp [deleteQuestion, hfq, hcond]
    rw [hred, hfil]
    omega

/-- C10 witness: deleting question 1 (owner 9) succeeds, the tags table is
unchanged, and tag "old" keeps count 1 while its actual links recount to
0. -/
theorem C10_delete_question_keeps_counts_witness :
    (deleteQuestion 9 1 exTagDB).1 =
      HttpRes.ok ("Question deleted successfully") ∧
    (deleteQuestion 9 1 exTagDB).2.tags = exTagDB.tags ∧
    (deleteQuestion 9 1 exTagDB).2.questionTags.countP
        (fun l => l.tagId == 1) < 1 :=
  C10_delete_question_keeps_counts exTagDB 9 1 ⟨1, 1, 9⟩ ⟨1, 1, "old", 1⟩
    (by decide) (by decide) rfl (by decide) (by decide)
